import Mathlib

/-!
Shallow embedding of the OpenMediaTranscoder pipeline (src/transcoder.ts,
src/jobs.ts, src/index.ts) and proofs about it.

Conventions of the embedding:
* JavaScript numbers that only ever hold non-negative integers are `Nat`;
  numbers that may be fractional (durations, thumbnail intervals) are `ℚ`,
  with `Math.floor`/`Math.round`/`%` spelled out explicitly.  All numeric
  values reached by the program stay far below 2^53, where JavaScript
  double arithmetic on integers is exact.
* External effects (subprocess exit codes and stderr, probed resolution and
  duration, fetch/upload success, the wall clock, `readdir` results) are an
  explicit environment record threaded through the pipeline.
* File payload bytes are abstracted away: an artifact is its storage key
  plus its content type.
-/

/-- Embeds `QualityLevel` (transcoder.ts). -/
structure QualityLevel where
  name : String
  height : Nat
  videoBitrate : String
  audioBitrate : String
deriving DecidableEq

/-- Embeds `DEFAULT_QUALITIES` (transcoder.ts). -/
def DEFAULT_QUALITIES : List QualityLevel :=
  [ { name := "360p", height := 360, videoBitrate := "800k", audioBitrate := "96k" },
    { name := "480p", height := 480, videoBitrate := "1400k", audioBitrate := "128k" },
    { name := "720p", height := 720, videoBitrate := "2800k", audioBitrate := "128k" },
    { name := "1080p", height := 1080, videoBitrate := "5000k", audioBitrate := "192k" },
    { name := "1440p", height := 1440, videoBitrate := "9000k", audioBitrate := "192k" },
    { name := "2160p", height := 2160, videoBitrate := "16000k", audioBitrate := "256k" } ]

/-- Embeds the quality-selection step of `transcodeToHLS` (transcoder.ts
lines 98-103): filter the ladder to heights `≤` the probed source height;
if the filter is empty, fall back to `[qualities[0]]` (`take 1` of the
ladder, which is the same list when the ladder is non-empty). -/
def selectQualities (qualities : List QualityLevel) (sourceHeight : Nat) : List QualityLevel :=
  let validQualities := qualities.filter (fun q => q.height ≤ sourceHeight)
  if validQualities.isEmpty then qualities.take 1 else validQualities

/-- Numeric value of a decimal digit character. -/
def digitVal (c : Char) : Nat := c.toNat - '0'.toNat

/-- Value of a digit string, most significant digit first. -/
def digitsToNat (l : List Char) : Nat := l.foldl (fun a c => a * 10 + digitVal c) 0

/-- Embeds the `^(\d+(?:\.\d+)?)` part of the regular expression in
`parseBitrate` (transcoder.ts line 243): reads a non-empty digit run with an
optional `.`-separated non-empty fractional digit run off the front of the
character list.  Returns the mantissa (all digits as one number), the number
of fractional digits, and the unconsumed remainder. -/
def readDecimal (l : List Char) : Option (Nat × Nat × List Char) :=
  let d1 := l.takeWhile Char.isDigit
  let r1 := l.dropWhile Char.isDigit
  if d1.isEmpty then none
  else
    match r1 with
    | [] => some (digitsToNat d1, 0, [])
    | c :: r2 =>
      if c = '.' then
        let d2 := r2.takeWhile Char.isDigit
        let r3 := r2.dropWhile Char.isDigit
        if d2.isEmpty then none
        else some (digitsToNat (d1 ++ d2), d2.length, r3)
      else some (digitsToNat d1, 0, c :: r2)

/-- Embeds the `(k|M)?$` part of the regular expression together with the
case-insensitive unit dispatch of `parseBitrate`: the remainder after the
number must be empty (multiplier 1) or a single `k`/`K` (×1000) or
`m`/`M` (×1000000); anything else fails the match. -/
def unitMult : List Char → Option Nat
  | [] => some 1
  | [c] =>
      if c = 'k' ∨ c = 'K' then some 1000
      else if c = 'm' ∨ c = 'M' then some 1000000
      else none
  | _ => none

/-- The full regular-expression match of `parseBitrate`:
mantissa, fractional-digit count, and unit multiplier. -/
def bitrateMatch (s : String) : Option (Nat × Nat × Nat) :=
  match readDecimal s.data with
  | none => none
  | some (n, e, rest) =>
    match unitMult rest with
    | none => none
    | some m => some (n, e, m)

/-- Round to the nearest integer, ties to even — the IEEE 754 tie rule. -/
def rne (x : ℚ) : ℤ :=
  if x - ⌊x⌋ = 1 / 2 then (if 2 ∣ ⌊x⌋ then ⌊x⌋ else ⌊x⌋ + 1) else round x

/-- The binade of a positive rational: the greatest `e` with `2 ^ e ≤ q`
(exact for every `q > 0`: for `q ≥ 1` via the floor's base-2 logarithm, for
`q < 1` via the ceiling logarithm of `1 / q`). -/
def binExp (q : ℚ) : ℤ :=
  if 1 ≤ q then (Nat.log2 (⌊q⌋).toNat : ℤ)
  else -(Nat.clog 2 (⌈1 / q⌉).toNat : ℤ)

/-- Round a non-negative rational to the nearest IEEE 754 binary64 value
(53-bit significand, round-to-nearest ties-to-even, gradual underflow below
`2 ^ (-1022)`); values at or above `2 ^ 1024` are clamped to the sentinel
`2 ^ 1024`, standing in for `Infinity` (no theorem exercises that region).
This is the value semantics of every JavaScript number the bitrate parser
manipulates. -/
def roundDouble (q : ℚ) : ℚ :=
  if q = 0 then 0
  else
    let k := max (binExp q - 52) (-1074)
    let r := (rne (q / 2 ^ k) : ℚ) * 2 ^ k
    if 2 ^ 1024 ≤ r then 2 ^ 1024 else r

/-- `parseFloat` on a matched decimal `\d+(\.\d+)?` with mantissa `n` and
`e` fractional digits: the decimal value correctly rounded to binary64. -/
def parseFloatDec (n e : Nat) : ℚ := roundDouble ((n : ℚ) / 10 ^ e)

/-- JavaScript `*`: the exact product, correctly rounded to binary64. -/
def jsMul (a b : ℚ) : ℚ := roundDouble (a * b)

/-- Embeds `parseBitrate` (transcoder.ts lines 242-252).  On a match the
source computes `parseFloat(match[1])`, multiplies by 1000 (`k`) or
1000000 (`m`) in double arithmetic, and takes `Math.floor` (exact on a
double); no suffix floors the parsed value directly; no match parses
as `0`. -/
def parseBitrate (s : String) : Nat :=
  match bitrateMatch s with
  | none => 0
  | some (n, e, m) =>
      let value := parseFloatDec n e
      if m = 1 then (⌊value⌋).toNat else (⌊jsMul value (m : ℚ)⌋).toNat

/-- The decimal-number match against an entire string, used to state the
case-insensitivity of the bitrate suffix: `some (n, e)` when the whole
string is `\d+(\.\d+)?` with mantissa `n` and `e` fractional digits. -/
def decRead (s : String) : Option (Nat × Nat) :=
  match readDecimal s.data with
  | some (n, e, []) => some (n, e)
  | _ => none

/-- Embeds the per-quality chunk appended to the master playlist by the loop
body of `generateMasterPlaylist` (transcoder.ts lines 226-234). -/
def masterPlaylistEntry (q : QualityLevel) : String :=
  let videoBitrateNum := parseBitrate q.videoBitrate
  let audioBitrateNum := parseBitrate q.audioBitrate
  let totalBitrate := videoBitrateNum + audioBitrateNum
  "#EXT-X-STREAM-INF:BANDWIDTH=" ++ toString totalBitrate ++
    ",RESOLUTION=" ++ toString (q.height * 16 / 9) ++ "x" ++ toString q.height ++
    ",NAME=\"" ++ q.name ++ "\"\n" ++
    (q.name ++ "/playlist.m3u8\n\n")

/-- Embeds `generateMasterPlaylist` (transcoder.ts lines 223-237): starts
from the fixed header and appends one chunk per quality, in list order.
The `prefix` parameter is accepted but unused, exactly as in the source
(playlist references are relative). -/
def generateMasterPlaylist (qualities : List QualityLevel) (_pfx : String) : String :=
  qualities.foldl (fun playlist q => playlist ++ masterPlaylistEntry q)
    ("#EXTM3U\n#EXT-X-VERSION:3\n\n")

/-- Embeds `String(n).padStart(w, '0')`. -/
def padStart (w : Nat) (s : String) : String :=
  if w ≤ s.length then s else String.mk (List.replicate (w - s.length) '0') ++ s

/-- JavaScript `a % b` for the non-negative operands used by
`formatVTTTime` (for non-negative `a` and positive `b`, JavaScript's
truncating remainder coincides with the flooring one). -/
def jsMod (a b : ℚ) : ℚ := a - b * (⌊a / b⌋ : ℚ)

/-- Embeds `formatVTTTime` (transcoder.ts lines 448-455). -/
def formatVTTTime (seconds : ℚ) : String :=
  let hours := ⌊seconds / 3600⌋
  let minutes := ⌊jsMod seconds 3600 / 60⌋
  let secs := ⌊jsMod seconds 60⌋
  let ms := ⌊jsMod seconds 1 * 1000⌋
  padStart 2 (toString hours.toNat) ++ ":" ++ padStart 2 (toString minutes.toNat) ++ ":" ++
    padStart 2 (toString secs.toNat) ++ "." ++ padStart 3 (toString ms.toNat)

/-- Fixed thumbnail tile width in `generateThumbnailVTT` (transcoder.ts). -/
def thumbWidth : Nat := 160

/-- Fixed thumbnail tile height in `generateThumbnailVTT` (transcoder.ts). -/
def thumbHeight : Nat := 90

/-- Embeds one loop iteration of `generateThumbnailVTT` (transcoder.ts
lines 429-440): the cue for sampled frame `i`. -/
def vttCue (cols : Nat) (interval : ℚ) (i : Nat) : String :=
  let startTime := (i : ℚ) * interval
  let endTime := ((i : ℚ) + 1) * interval
  let col := i % cols
  let row := i / cols
  let x := col * thumbWidth
  let y := row * thumbHeight
  formatVTTTime startTime ++ " --> " ++ formatVTTTime endTime ++ "\n" ++
    "sprites.jpg#xywh=" ++ toString x ++ "," ++ toString y ++ "," ++
    toString thumbWidth ++ "," ++ toString thumbHeight ++ "\n\n"

/-- Embeds `generateThumbnailVTT` (transcoder.ts lines 423-443). -/
def generateThumbnailVTT (count : Nat) (interval : ℚ) (cols : Nat) : String :=
  (List.range count).foldl (fun vtt i => vtt ++ vttCue cols interval i) ("WEBVTT\n\n")

/-- Embeds `Math.floor(duration / interval)`, the scrub-thumbnail count of
`generateThumbnails` (transcoder.ts line 343). -/
def scrubThumbCount (duration interval : ℚ) : Nat := (⌊duration / interval⌋).toNat

/-- Embeds `JobStatus` (jobs.ts). -/
inductive JobStatus
  | pending
  | processing
  | done
  | error
deriving DecidableEq

/-- Embeds `JobProgress` (jobs.ts); optional fields are `Option`s. -/
structure JobProgress where
  step : String
  currentQuality : Option String := none
  completedQualities : Option (List String) := none
  totalQualities : Option Nat := none
  percentage : Option Nat := none
  message : Option String := none
deriving DecidableEq

/-- Embeds `Job` (jobs.ts).  Timestamps are the `Nat` values of
`Date.now()`. -/
structure Job where
  id : String
  sourceUrl : String
  resultKeyPrefix : String
  webhookUrl : Option String
  status : JobStatus
  progress : Option JobProgress := none
  createdAt : Nat
  updatedAt : Nat
  resultFiles : Option (List String) := none
  posterUrl : Option String := none
  thumbnailsVtt : Option String := none
  error : Option String := none
deriving DecidableEq

/-- Embeds the `Partial<Job>` update objects passed to `updateJob`:
`some` = the field is present in the object literal, `none` = absent.
`updatedAt` is absent because `Object.assign(job, updates, ...)` always
overwrites it with the current time last.  (Callers never place an
explicitly-`undefined` property in an update object, so "absent" is the
only way a field is left unchanged.) -/
structure JobPatch where
  id : Option String := none
  sourceUrl : Option String := none
  resultKeyPrefix : Option String := none
  webhookUrl : Option String := none
  status : Option JobStatus := none
  progress : Option JobProgress := none
  createdAt : Option Nat := none
  resultFiles : Option (List String) := none
  posterUrl : Option String := none
  thumbnailsVtt : Option String := none
  error : Option String := none
deriving DecidableEq

/-- Embeds `Object.assign(job, updates, \x7b updatedAt: Date.now() \x7d)`
(jobs.ts line 49): present patch fields overwrite, absent ones keep the
previous value, and `updatedAt` becomes the mutation time. -/
def applyPatch (j : Job) (p : JobPatch) (now : Nat) : Job :=
  { id := p.id.getD j.id
    sourceUrl := p.sourceUrl.getD j.sourceUrl
    resultKeyPrefix := p.resultKeyPrefix.getD j.resultKeyPrefix
    webhookUrl := (p.webhookUrl.map some).getD j.webhookUrl
    status := p.status.getD j.status
    progress := (p.progress.map some).getD j.progress
    createdAt := p.createdAt.getD j.createdAt
    updatedAt := now
    resultFiles := (p.resultFiles.map some).getD j.resultFiles
    posterUrl := (p.posterUrl.map some).getD j.posterUrl
    thumbnailsVtt := (p.thumbnailsVtt.map some).getD j.thumbnailsVtt
    error := (p.error.map some).getD j.error }

/-- Embeds `createJob` (jobs.ts lines 30-44); `id` stands for the
`crypto.randomUUID()` draw made inside `createJob`, `now` for `Date.now()`. -/
def createJob (id : String) (sourceUrl : String) (resultKeyPrefix : String)
    (webhookUrl : Option String) (now : Nat) : Job :=
  { id := id
    sourceUrl := sourceUrl
    resultKeyPrefix := resultKeyPrefix
    webhookUrl := webhookUrl
    status := .pending
    createdAt := now
    updatedAt := now }

/-- The in-memory registry `jobs : Map<string, Job>`, as an association
list keyed by job id. -/
def JobRegistry := List (String × Job)

/-- Embeds `updateJob` (jobs.ts lines 46-50): look the id up; if absent,
return with no change (and no error); otherwise mutate that entry in place
with `applyPatch`. -/
def updateJob (registry : JobRegistry) (id : String) (p : JobPatch) (now : Nat) :
    JobRegistry :=
  match (List.lookup id registry : Option Job) with
  | none => registry
  | some _ => registry.map (fun e => if e.1 = id then (e.1, applyPatch e.2 p now) else e)

/-- Embeds the JSON body of `POST /api/jobs` (index.ts lines 129-133). -/
structure SubmitBody where
  sourceUrl : String
  resultKeyPrefix : Option String := none
  webhookUrl : Option String := none

/-- Embeds the job-creation part of the `POST /api/jobs` handler
(index.ts lines 135-137).  `uuid k` is the value of the `k`-th
`crypto.randomUUID()` call made while handling the request: when the body
omits `resultKeyPrefix`, draw 0 is spent on the default prefix and draw 1
becomes the job id inside `createJob`; when the body supplies a prefix,
`??` short-circuits and draw 0 becomes the job id. -/
def createJobEndpoint (body : SubmitBody) (uuid : Nat → String) (now : Nat) : Job :=
  match body.resultKeyPrefix with
  | some p => createJob (uuid 0) body.sourceUrl p body.webhookUrl now
  | none =>
      createJob (uuid 1) body.sourceUrl ("output/" ++ uuid 0 ++ "/") body.webhookUrl now

/-- `s.endsWith(p)`: the characters of `p` are a suffix of those of `s`. -/
def strEndsWith (s p : String) : Bool := decide (p.data <:+ s.data)

/-- Embeds `TranscodedFile` (transcoder.ts) with payload bytes abstracted
away: storage key and content type. -/
structure TranscodedFile where
  key : String
  contentType : String
deriving DecidableEq

/-- Everything the pipeline observes from outside: subprocess outcomes,
probe results, network success, the wall clock.  One record per job run. -/
structure TranscodeEnv where
  /-- The source fetch (`fetch(job.sourceUrl)`) responds ok. -/
  downloadOk : Bool
  /-- `statusText` of a failed source fetch. -/
  statusText : String
  /-- `ffprobe` resolution probing succeeds. -/
  probeOk : Bool
  /-- Probed source height (width is unused by the pipeline logic). -/
  sourceHeight : Nat
  /-- Exit code of the `i`-th ffmpeg rendition encode. -/
  encodeExit : Nat → Nat
  /-- Captured stderr of the `i`-th ffmpeg rendition encode. -/
  encodeStderr : Nat → String
  /-- Number of `segment-*.ts` files the `i`-th encode leaves on disk. -/
  segCount : Nat → Nat
  /-- `ffprobe` duration probing succeeds (truthy, parseable number). -/
  durationOk : Bool
  /-- Probed duration in seconds. -/
  duration : ℚ
  /-- Poster-frame extraction exits 0. -/
  posterOk : Bool
  /-- Scrub-frame extraction exits 0. -/
  scrubOk : Bool
  /-- Number of `thumb-*.jpg` files found after scrub-frame extraction. -/
  scrubFrames : Nat
  /-- Sprite-sheet tiling exits 0. -/
  spriteOk : Bool
  /-- `uploadMultipleResults` succeeds. -/
  uploadOk : Bool
  /-- Message of the upload failure, when it fails. -/
  uploadErrMsg : String
  /-- `Date.now()` at the `k`-th sampling point of the run. -/
  clock : Nat → Nat

/-- `segment-%03d.ts`, the `hls_segment_filename` pattern. -/
def segmentName (i : Nat) : String := "segment-" ++ padStart 3 (toString i) ++ ".ts"

/-- The files ffmpeg leaves in one quality directory and `readdir` returns:
the per-rendition playlist plus `n` numbered segments. -/
def renditionFileNames (n : Nat) : List String :=
  "playlist.m3u8" :: (List.range n).map segmentName

/-- Embeds the content-type classification of `transcodeToHLS`
(transcoder.ts lines 164-171). -/
def contentTypeFor (file : String) : String :=
  if strEndsWith file (".m3u8") then "application/x-mpegURL"
  else if strEndsWith file (".ts") then "video/MP2T"
  else "application/octet-stream"

/-- The files pushed for one successful quality (transcoder.ts lines
160-178): key `outputPrefix + name + "/" + file` with classified type. -/
def qualityFiles (env : TranscodeEnv) (pfx : String) (q : QualityLevel) (idx : Nat) :
    List TranscodedFile :=
  (renditionFileNames (env.segCount idx)).map
    (fun file => { key := pfx ++ q.name ++ "/" ++ file, contentType := contentTypeFor file })

/-- The error message thrown on a non-zero ffmpeg exit (transcoder.ts
line 154). -/
def ffmpegFailMsg (name : String) (exitCode : Nat) (stderr : String) : String :=
  "FFmpeg failed for " ++ name ++ " with exit code " ++ toString exitCode ++ ": " ++ stderr

/-- Outcome of the per-quality encode loop: the `onProgress` invocations
`(currentQuality, completedQualities, totalQualities)` in order, the final
`completedQualities`, and either the collected files or the thrown error. -/
structure EncodeLoopResult where
  calls : List (String × List String × Nat)
  completed : List String
  result : Except String (List TranscodedFile)

/-- Embeds the `for (const quality of validQualities)` loop of
`transcodeToHLS` (transcoder.ts lines 111-182): report progress, run
ffmpeg (exit code from the environment, indexed by loop position), throw on
a non-zero exit, otherwise collect the rendition files and mark the quality
completed. -/
def encodeLoop (env : TranscodeEnv) (pfx : String) (total : Nat) :
    List QualityLevel → Nat → List String → EncodeLoopResult
  | [], _, completed => ⟨[], completed, .ok []⟩
  | q :: rest, idx, completed =>
      let call := (q.name, completed, total)
      if env.encodeExit idx = 0 then
        let r := encodeLoop env pfx total rest (idx + 1) (completed ++ [q.name])
        ⟨call :: r.calls, r.completed,
          r.result.map (fun fs => qualityFiles env pfx q idx ++ fs)⟩
      else
        ⟨[call], completed,
          .error (ffmpegFailMsg q.name (env.encodeExit idx) (env.encodeStderr idx))⟩

/-- The `onProgress` invocations the loop makes when every encode succeeds
(used to state loop lemmas). -/
def expectedCalls (total : Nat) : List QualityLevel → List String →
    List (String × List String × Nat)
  | [], _ => []
  | q :: rest, completed => (q.name, completed, total) :: expectedCalls total rest (completed ++ [q.name])

/-- The rendition files the loop collects when every encode succeeds. -/
def expectedRenditionFiles (env : TranscodeEnv) (pfx : String) :
    List QualityLevel → Nat → List TranscodedFile
  | [], _ => []
  | q :: rest, idx => qualityFiles env pfx q idx ++ expectedRenditionFiles env pfx rest (idx + 1)

/-- Embeds `generateThumbnails` (transcoder.ts lines 298-418), with file
payloads as `(filename, contentType)` pairs.  A duration-probe failure
throws; poster and scrub/sprite failures only skip their artifacts; when
`Math.floor(duration / interval) = 0` the whole scrub/sprite/cue stage is
skipped. -/
def generateThumbnails (env : TranscodeEnv) (interval : ℚ) :
    Except String (List (String × String)) :=
  if env.durationOk then
    let posterFiles := if env.posterOk then [("poster.jpg", "image/jpeg")] else []
    let thumbCount := scrubThumbCount env.duration interval
    let scrubFiles :=
      if 0 < thumbCount then
        if env.scrubOk then
          if 0 < env.scrubFrames then
            if env.spriteOk then [("sprites.jpg", "image/jpeg"), ("thumbnails.vtt", "text/vtt")]
            else []
          else []
        else []
      else []
    .ok (posterFiles ++ scrubFiles)
  else .error ("Failed to get video duration")

/-- Embeds `TranscodeOptions` (transcoder.ts lines 13-20), minus the
progress callback, which the embedding records as data instead. -/
structure TranscodeOptions where
  outputPrefix : String
  segmentDuration : Option Nat := none
  qualities : Option (List QualityLevel) := none
  generateThumbnails : Option Bool := none
  thumbnailInterval : Option ℚ := none

/-- Result of `transcodeToHLS`: the `onProgress` invocations in order, and
either the full artifact list or the thrown error. -/
structure TranscodeResult where
  calls : List (String × List String × Nat)
  result : Except String (List TranscodedFile)

/-- Embeds `transcodeToHLS` (transcoder.ts lines 77-218): probe the source
height (failure throws), select qualities, encode each sequentially, append
the master playlist, then (unless thumbnails were disabled) report one more
progress call and run the thumbnail stage. -/
def transcodeToHLS (env : TranscodeEnv) (opts : TranscodeOptions) : TranscodeResult :=
  if env.probeOk then
    let qualities := opts.qualities.getD DEFAULT_QUALITIES
    let validQualities := selectQualities qualities env.sourceHeight
    let r := encodeLoop env opts.outputPrefix validQualities.length validQualities 0 []
    match r.result with
    | .error e => ⟨r.calls, .error e⟩
    | .ok files =>
        let files := files ++
          [{ key := opts.outputPrefix ++ "master.m3u8", contentType := "application/x-mpegURL" }]
        if opts.generateThumbnails ≠ some false then
          let calls := r.calls ++ [("thumbnails", r.completed, validQualities.length)]
          match generateThumbnails env (opts.thumbnailInterval.getD 10) with
          | .error e => ⟨calls, .error e⟩
          | .ok thumbs =>
              ⟨calls, .ok (files ++ thumbs.map
                (fun t => { key := opts.outputPrefix ++ t.1, contentType := t.2 }))⟩
        else ⟨r.calls, .ok files⟩
  else ⟨[], .error ("Failed to probe video resolution")⟩

/-- `Math.round` for the non-negative arguments it receives here:
`⌊q + 1/2⌋`. -/
def jsRound (q : ℚ) : ℤ := ⌊q + 1 / 2⌋

/-- Embeds the percentage computation of the `onProgress` closure in the
`POST /api/jobs` handler (index.ts line 165):
`Math.round((completed.length / total) * 60) + 10`. -/
def transcodePct (completedCount total : Nat) : Nat :=
  (jsRound (((completedCount : ℚ) / (total : ℚ)) * 60)).toNat + 10

/-- The first update of the async job body (index.ts lines 143-150):
status `processing`, step `downloading`, percentage 0. -/
def downloadingPatch : JobPatch :=
  { status := some .processing
    progress := some { step := "downloading", percentage := some 0,
                       message := some ("Downloading source video...") } }

/-- The update made by the `onProgress` closure (index.ts lines 164-176)
for one recorded call `(currentQuality, completedQualities, total)`. -/
def transcodingPatch (call : String × List String × Nat) : JobPatch :=
  { progress := some
      { step := "transcoding"
        currentQuality := some call.1
        completedQualities := some call.2.1
        totalQualities := some call.2.2
        percentage := some (transcodePct call.2.1.length call.2.2)
        message := some ("Transcoding " ++ call.1 ++ " (" ++ toString call.2.1.length ++
          "/" ++ toString call.2.2 ++ " complete)...") } }

/-- The update made just before uploading (index.ts lines 186-192). -/
def uploadingPatch (fileCount : Nat) : JobPatch :=
  { progress := some { step := "uploading", percentage := some 80,
                       message := some ("Uploading " ++ toString fileCount ++ " files to S3...") } }

/-- The terminal success update (index.ts lines 201-211). -/
def donePatch (files : List TranscodedFile) : JobPatch :=
  { status := some .done
    progress := some { step := "done", percentage := some 100,
                       message := some ("Transcoding complete!") }
    resultFiles := some (files.map (fun f => f.key))
    posterUrl := (files.find? (fun f => strEndsWith f.key ("poster.jpg"))).map (fun f => f.key)
    thumbnailsVtt :=
      (files.find? (fun f => strEndsWith f.key ("thumbnails.vtt"))).map (fun f => f.key) }

/-- The terminal failure update (index.ts lines 219-222). -/
def errorPatch (msg : String) : JobPatch :=
  { status := some .error, error := some msg }

/-- Result of one asynchronous job run: the sequence of `updateJob` patches
in order, and the keys handed to `uploadMultipleResults` (empty when the
run never reaches a successful upload). -/
structure RunOutcome where
  patches : List JobPatch
  uploaded : List String

/-- Embeds the async body of the `POST /api/jobs` handler (index.ts lines
140-229) as the sequence of job updates it performs: mark
processing/downloading, fetch the source (failure is caught and recorded),
run `transcodeToHLS` with `segmentDuration = 10` and the `onProgress`
closure (a thrown error is caught and recorded; nothing is uploaded), then
mark uploading, upload everything, and mark done. -/
def runJobPatches (env : TranscodeEnv) (pfx : String) : RunOutcome :=
  if env.downloadOk then
    let tr := transcodeToHLS env { outputPrefix := pfx, segmentDuration := some 10 }
    let progressPatches := tr.calls.map transcodingPatch
    match tr.result with
    | .error e => ⟨downloadingPatch :: progressPatches ++ [errorPatch e], []⟩
    | .ok files =>
        if env.uploadOk then
          ⟨downloadingPatch :: progressPatches ++ [uploadingPatch files.length, donePatch files],
            files.map (fun f => f.key)⟩
        else
          ⟨downloadingPatch :: progressPatches ++
            [uploadingPatch files.length, errorPatch env.uploadErrMsg], []⟩
  else
    ⟨[downloadingPatch, errorPatch ("Failed to download source: " ++ env.statusText)], []⟩

/-- Applies a sequence of patches, stamping the `k`-th applied patch with
`clock k` (jobs.ts sets `updatedAt: Date.now()` at every mutation). -/
def applyPatchList (clock : Nat → Nat) : Nat → Job → List JobPatch → Job
  | _, j, [] => j
  | k, j, p :: ps => applyPatchList clock (k + 1) (applyPatch j p (clock k)) ps

/-- The percentages carried by the progress updates of a run, in order. -/
def runPcts (env : TranscodeEnv) (pfx : String) : List Nat :=
  (runJobPatches env pfx).patches.filterMap (fun p => p.progress.bind (fun pr => pr.percentage))

/-- One whole `POST /api/jobs` request plus its asynchronous job run:
create the job from the body, run the pipeline against the job's result
key prefix, and fold all updates into the final job record. -/
def runJob (env : TranscodeEnv) (body : SubmitBody) (uuid : Nat → String) :
    Job × RunOutcome :=
  let j0 := createJobEndpoint body uuid (env.clock 0)
  let out := runJobPatches env j0.resultKeyPrefix
  (applyPatchList env.clock 1 j0 out.patches, out)

/-- The thumbnail artifacts `generateThumbnails` returns when the duration
probe succeeds. -/
def genThumbsList (env : TranscodeEnv) (interval : ℚ) : List (String × String) :=
  (if env.posterOk then [("poster.jpg", "image/jpeg")] else []) ++
    (if 0 < scrubThumbCount env.duration interval then
      if env.scrubOk then
        if 0 < env.scrubFrames then
          if env.spriteOk then [("sprites.jpg", "image/jpeg"), ("thumbnails.vtt", "text/vtt")]
          else []
        else []
      else []
    else [])

/-- The orchestrator's transcode options (index.ts lines 178-182). -/
def orchestratorOpts (pfx : String) : TranscodeOptions :=
  { outputPrefix := pfx, segmentDuration := some 10 }

/-- The percentage a progress patch carries. -/
def patchPct (p : JobPatch) : Option Nat := p.progress.bind (fun pr => pr.percentage)

/-- A concrete environment for witnesses: a 1080p source, 30-second
duration, all external steps succeeding, with pluggable encode exit codes
and duration. -/
def sampleEnv (exits : Nat → Nat) (dur : ℚ) : TranscodeEnv :=
  { downloadOk := true
    statusText := "Not Found"
    probeOk := true
    sourceHeight := 1080
    encodeExit := exits
    encodeStderr := fun _ => "x264 diagnostic log"
    segCount := fun _ => 2
    durationOk := true
    duration := dur
    posterOk := true
    scrubOk := true
    scrubFrames := 3
    spriteOk := true
    uploadOk := true
    uploadErrMsg := "upload failed"
    clock := fun k => k }


/-- When some ladder entry passes the height filter, selection is exactly
the filter. -/
lemma selectQualities_eq_filter (ladder : List QualityLevel) (H : Nat)
    (h : ladder.filter (fun q => q.height ≤ H) ≠ []) :
    selectQualities ladder H = ladder.filter (fun q => q.height ≤ H) := by
  unfold selectQualities
  simp [List.isEmpty_iff, h]

/-- When no ladder entry passes the height filter, selection is the first
ladder entry. -/
lemma selectQualities_eq_take (ladder : List QualityLevel) (H : Nat)
    (h : ladder.filter (fun q => q.height ≤ H) = []) :
    selectQualities ladder H = ladder.take 1 := by
  unfold selectQualities
  simp [List.isEmpty_iff, h]

/-- C1: for every source height `H` and every ordered quality ladder, the
selection step returns exactly the ladder profiles with height `≤ H`, in
their original ascending-height order (a sorted sublist of the ladder, with
membership characterised by the height bound); if no profile's height is
`≤ H`, it returns exactly the single lowest-ladder profile.  The result is
never empty. -/
theorem selectQualities_spec (ladder : List QualityLevel) (H : Nat)
    (hne : ladder ≠ [])
    (hsorted : ladder.Sorted (fun a b => a.height < b.height)) :
    (selectQualities ladder H).Sublist ladder ∧
    (selectQualities ladder H).Sorted (fun a b => a.height < b.height) ∧
    selectQualities ladder H ≠ [] ∧
    ((∃ q ∈ ladder, q.height ≤ H) →
      selectQualities ladder H = ladder.filter (fun q => q.height ≤ H) ∧
      ∀ q, q ∈ selectQualities ladder H ↔ q ∈ ladder ∧ q.height ≤ H) ∧
    ((∀ q ∈ ladder, H < q.height) →
      selectQualities ladder H = [ladder.head hne]) := by
  obtain ⟨a, t, rfl⟩ : ∃ a s, ladder = a :: s := by
    cases ladder with
    | nil => exact absurd rfl hne
    | cons a s => exact ⟨a, s, rfl⟩
  by_cases hf : (a :: t).filter (fun q => q.height ≤ H) = []
  · have hsel := selectQualities_eq_take (a :: t) H hf
    have hall : ∀ q ∈ a :: t, H < q.height := by
      intro q hq
      have := List.filter_eq_nil_iff.mp hf q hq
      simpa using this
    rw [hsel]
    refine ⟨List.take_sublist 1 (a :: t), hsorted.sublist (List.take_sublist 1 (a :: t)),
      by simp, ?_, ?_⟩
    · rintro ⟨q, hq, hle⟩
      exact absurd hle (Nat.not_le.mpr (hall q hq))
    · intro _
      simp [List.take]
  · have hsel := selectQualities_eq_filter (a :: t) H hf
    rw [hsel]
    refine ⟨List.filter_sublist _, hsorted.sublist (List.filter_sublist _), hf, ?_, ?_⟩
    · intro _
      refine ⟨rfl, ?_⟩
      intro q
      simp [List.mem_filter]
    · intro hall
      exfalso
      obtain ⟨q, r, hqr⟩ := List.exists_cons_of_ne_nil hf
      have hq : q ∈ (a :: t).filter (fun q => q.height ≤ H) := by
        rw [hqr]; exact List.mem_cons_self q r
      have := List.mem_filter.mp hq
      exact absurd (by simpa using this.2) (Nat.not_le.mpr (hall q this.1))

/-- Witness for `selectQualities_spec`: the default six-step ladder at
source height 1080 (end-to-end scenario A). -/
theorem selectQualities_spec_witness :
    (DEFAULT_QUALITIES ≠ [] ∧
      DEFAULT_QUALITIES.Sorted (fun a b => a.height < b.height)) ∧
    (selectQualities DEFAULT_QUALITIES 1080).Sublist DEFAULT_QUALITIES ∧
    (selectQualities DEFAULT_QUALITIES 1080).Sorted (fun a b => a.height < b.height) ∧
    selectQualities DEFAULT_QUALITIES 1080 ≠ [] ∧
    ((∃ q ∈ DEFAULT_QUALITIES, q.height ≤ 1080) →
      selectQualities DEFAULT_QUALITIES 1080 =
        DEFAULT_QUALITIES.filter (fun q => q.height ≤ 1080) ∧
      ∀ q, q ∈ selectQualities DEFAULT_QUALITIES 1080 ↔
        q ∈ DEFAULT_QUALITIES ∧ q.height ≤ 1080) ∧
    ((∀ q ∈ DEFAULT_QUALITIES, 1080 < q.height) →
      selectQualities DEFAULT_QUALITIES 1080 = [DEFAULT_QUALITIES.head (by decide)]) :=
  ⟨⟨by decide, by decide⟩,
    selectQualities_spec DEFAULT_QUALITIES 1080 (by decide) (by decide)⟩

/-- Structure of a whole-string decimal match: either all digits, or a
non-empty digit run, a dot, and a non-empty digit run. -/
lemma readDecimal_whole (l : List Char) (n e : Nat)
    (h : readDecimal l = some (n, e, [])) :
    (l ≠ [] ∧ (∀ x ∈ l, x.isDigit) ∧ n = digitsToNat l ∧ e = 0) ∨
    (∃ d1 d2, d1 ≠ [] ∧ d2 ≠ [] ∧ (∀ x ∈ d1, x.isDigit) ∧ (∀ x ∈ d2, x.isDigit) ∧
      l = d1 ++ '.' :: d2 ∧ n = digitsToNat (d1 ++ d2) ∧ e = d2.length) := by
  unfold readDecimal at h
  by_cases hd1 : (l.takeWhile Char.isDigit).isEmpty
  · simp [hd1] at h
  · simp only [hd1, if_neg, Bool.false_eq_true, not_false_iff, if_false] at h
    rcases hr1 : l.dropWhile Char.isDigit with _ | ⟨c, r2⟩
    · left
      rw [hr1] at h
      simp only [Option.some.injEq, Prod.mk.injEq] at h
      have hl : l.takeWhile Char.isDigit = l := by
        have := List.takeWhile_append_dropWhile Char.isDigit l
        rw [hr1] at this
        simpa using this
      refine ⟨?_, ?_, ?_, ?_⟩
      · intro hnil; rw [hnil] at hd1; simp at hd1
      · intro x hx; rw [← hl] at hx; exact List.mem_takeWhile_imp hx
      · rw [← hl]; exact h.1.symm
      · exact h.2.1.symm
    · rw [hr1] at h
      by_cases hc : c = '.'
      · subst hc
        by_cases hd2 : (r2.takeWhile Char.isDigit).isEmpty
        · simp [hd2] at h
        · simp only [if_true, eq_self_iff_true, hd2, if_neg, Bool.false_eq_true,
            not_false_iff, if_false, Option.some.injEq, Prod.mk.injEq] at h
          have hr3 : r2.dropWhile Char.isDigit = [] := h.2.2
          have hr2dig : ∀ x ∈ r2, x.isDigit := List.dropWhile_eq_nil_iff.mp hr3
          have hd2eq : r2.takeWhile Char.isDigit = r2 :=
            List.takeWhile_eq_self_iff.mpr hr2dig
          right
          refine ⟨l.takeWhile Char.isDigit, r2, ?_, ?_, ?_, hr2dig, ?_, ?_, ?_⟩
          · intro hnil; rw [hnil] at hd1; simp at hd1
          · intro hnil
            rw [hnil] at hd2
            simp at hd2
          · intro x hx; exact List.mem_takeWhile_imp hx
          · have := List.takeWhile_append_dropWhile Char.isDigit l
            rw [hr1] at this
            exact this.symm
          · rw [hd2eq] at h
            exact h.1.symm
          · rw [hd2eq] at h
            exact h.2.1.symm
      · simp only [hc, if_false, Option.some.injEq, Prod.mk.injEq] at h
        exact absurd h.2.2 (by simp)

/-- Appending a non-digit, non-dot character to a whole-string decimal
match leaves that character as the unconsumed remainder. -/
lemma readDecimal_append (l : List Char) (n e : Nat) (c : Char)
    (hnd : ¬ c.isDigit) (hdot : c ≠ '.')
    (h : readDecimal l = some (n, e, [])) :
    readDecimal (l ++ [c]) = some (n, e, [c]) := by
  have hndb : Char.isDigit c = false := by
    cases hcb : c.isDigit with
    | false => rfl
    | true => exact absurd hcb hnd
  rcases readDecimal_whole l n e h with ⟨hne, hdig, hn, he⟩ |
    ⟨d1, d2, hd1ne, hd2ne, hd1dig, hd2dig, hl, hn, he⟩
  · have htw : (l ++ [c]).takeWhile Char.isDigit = l := by
      rw [List.takeWhile_append_of_pos hdig]
      simp [List.takeWhile_cons, hndb]
    have hdw : (l ++ [c]).dropWhile Char.isDigit = [c] := by
      rw [List.dropWhile_append_of_pos hdig]
      simp [List.dropWhile_cons, hndb]
    unfold readDecimal
    rw [htw, hdw]
    simp only [List.isEmpty_iff, hne, if_neg, if_false, hdot, hn, he]
  · have hd1tw : (l ++ [c]).takeWhile Char.isDigit = d1 := by
      rw [hl, List.append_assoc, List.takeWhile_append_of_pos hd1dig]
      simp [List.takeWhile_cons]
    have hd1dw : (l ++ [c]).dropWhile Char.isDigit = '.' :: (d2 ++ [c]) := by
      rw [hl, List.append_assoc, List.dropWhile_append_of_pos hd1dig]
      simp [List.dropWhile_cons]
    unfold readDecimal
    rw [hd1tw, hd1dw]
    have hd2tw : (d2 ++ [c]).takeWhile Char.isDigit = d2 := by
      rw [List.takeWhile_append_of_pos hd2dig]
      simp [List.takeWhile_cons, hndb]
    have hd2dw : (d2 ++ [c]).dropWhile Char.isDigit = [c] := by
      rw [List.dropWhile_append_of_pos hd2dig]
      simp [List.dropWhile_cons, hndb]
    simp only [List.isEmpty_iff, hd1ne, if_neg, if_false, if_true, eq_self_iff_true,
      hd2tw, hd2dw, hd2ne, hn, he]

/-- `decRead` success is exactly a whole-string decimal match. -/
lemma decRead_some (s : String) (n e : Nat) (h : decRead s = some (n, e)) :
    readDecimal s.data = some (n, e, []) := by
  unfold decRead at h
  rcases hr : readDecimal s.data with _ | ⟨⟨a, b, rest⟩⟩
  · rw [hr] at h
    simp at h
  · rw [hr] at h
    cases rest with
    | nil =>
        simp only [Option.some.injEq, Prod.mk.injEq] at h
        rw [h.1, h.2]
    | cons c t => simp at h

/-- Characterisation of the base-2 logarithm by bracketing powers. -/
lemma log2_eq_of_bracket (n e : ℕ) (h1 : 2 ^ e ≤ n) (h2 : n < 2 ^ (e + 1)) :
    Nat.log2 n = e := by
  rw [Nat.log2_eq_log_two]
  exact Nat.log_eq_of_pow_le_of_lt_pow h1 h2

/-- Rounding to the nearest integer fixes every integer. -/
lemma rne_intCast (z : ℤ) : rne ((z : ℚ)) = z := by
  unfold rne
  rw [Int.floor_intCast, if_neg (by norm_num), round_intCast]

/-- Evaluation of `roundDouble` in the normal range: given the binade
exponent `e` of `q ≥ 1`, the rounded scaled significand `z`, and the
absence of overflow, the rounded value is `z · 2 ^ e / 2 ^ 52`. -/
lemma roundDouble_eval (q : ℚ) (e : Nat) (z : ℤ)
    (hq1 : 1 ≤ q)
    (hlog : Nat.log2 (⌊q⌋).toNat = e)
    (hrne : rne (q * 2 ^ 52 / 2 ^ e) = z)
    (hlt : (z : ℚ) * 2 ^ e / 2 ^ 52 < 2 ^ 1024) :
    roundDouble q = (z : ℚ) * 2 ^ e / 2 ^ 52 := by
  have hq0 : q ≠ 0 := by intro h; rw [h] at hq1; norm_num at hq1
  have hbe : binExp q = (e : ℤ) := by
    unfold binExp
    rw [if_pos hq1, hlog]
  have hk : max (binExp q - 52) (-1074) = (e : ℤ) - 52 := by
    rw [hbe]
    exact max_eq_left (by omega)
  have h52 : ((2 : ℚ) ^ (52 : ℕ)) ≠ 0 := by norm_num
  have hpow : (2 : ℚ) ^ ((e : ℤ) - 52) * 2 ^ (52 : ℕ) = 2 ^ (e : ℕ) := by
    rw [← zpow_natCast (2 : ℚ) 52, ← zpow_add₀ (by norm_num : (2 : ℚ) ≠ 0),
      ← zpow_natCast (2 : ℚ) e]
    congr 1
    omega
  have harg : q / 2 ^ ((e : ℤ) - 52) = q * 2 ^ 52 / 2 ^ e := by
    have hz0 : (2 : ℚ) ^ ((e : ℤ) - 52) ≠ 0 := zpow_ne_zero _ (by norm_num)
    have he0 : ((2 : ℚ) ^ (e : ℕ)) ≠ 0 := by positivity
    rw [div_eq_div_iff hz0 he0, mul_assoc, mul_comm ((2 : ℚ) ^ (52 : ℕ)), hpow]
  have hval : (z : ℚ) * 2 ^ ((e : ℤ) - 52) = (z : ℚ) * 2 ^ (e : ℕ) / 2 ^ (52 : ℕ) := by
    rw [mul_div_assoc]
    congr 1
    rw [eq_div_iff h52]
    exact hpow
  unfold roundDouble
  rw [if_neg hq0]
  simp only [hk]
  rw [harg, hrne, hval, if_neg (not_le.mpr hlt)]

/-- Every natural number below `2 ^ 53` is exactly representable in
binary64, so `roundDouble` fixes it. -/
lemma roundDouble_natCast (n : Nat) (h : n < 2 ^ 53) :
    roundDouble ((n : ℚ)) = (n : ℚ) := by
  rcases Nat.eq_zero_or_pos n with h0 | h0
  · subst h0
    simp [roundDouble]
  · have hn0 : n ≠ 0 := Nat.pos_iff_ne_zero.mp h0
    have he : Nat.log2 n ≤ 52 := by
      have := (Nat.log2_lt hn0).mpr h
      omega
    have hlog : Nat.log2 (⌊(n : ℚ)⌋).toNat = Nat.log2 n := by
      rw [Int.floor_natCast, Int.toNat_natCast]
    have key : (n : ℚ) * 2 ^ 52 / 2 ^ Nat.log2 n =
        ((n * 2 ^ (52 - Nat.log2 n) : ℕ) : ℚ) := by
      push_cast
      rw [div_eq_iff (by positivity), mul_assoc, ← pow_add,
        show 52 - Nat.log2 n + Nat.log2 n = 52 from by omega]
    have hrne : rne ((n : ℚ) * 2 ^ 52 / 2 ^ Nat.log2 n) =
        ((n * 2 ^ (52 - Nat.log2 n) : ℕ) : ℤ) := by
      rw [key]
      have h2 := rne_intCast ((n * 2 ^ (52 - Nat.log2 n) : ℕ) : ℤ)
      rwa [Int.cast_natCast] at h2
    have hval : (((n * 2 ^ (52 - Nat.log2 n) : ℕ) : ℤ) : ℚ) * 2 ^ Nat.log2 n / 2 ^ 52 =
        (n : ℚ) := by
      push_cast
      rw [div_eq_iff (by positivity), mul_assoc, ← pow_add,
        show 52 - Nat.log2 n + Nat.log2 n = 52 from by omega]
    have hlt : (((n * 2 ^ (52 - Nat.log2 n) : ℕ) : ℤ) : ℚ) * 2 ^ Nat.log2 n / 2 ^ 52 <
        2 ^ 1024 := by
      rw [hval]
      calc (n : ℚ) < 2 ^ 53 := by exact_mod_cast h
        _ ≤ 2 ^ 1024 := by norm_num
    have heval := roundDouble_eval (n : ℚ) (Nat.log2 n)
      ((n * 2 ^ (52 - Nat.log2 n) : ℕ) : ℤ) (Nat.one_le_cast.mpr h0) hlog hrne hlt
    rw [heval, hval]

/-- Reading an integer mantissa below `2 ^ 53` with `parseFloat` is
exact. -/
lemma parseFloatDec_nat (n : Nat) (h : n < 2 ^ 53) : parseFloatDec n 0 = (n : ℚ) := by
  unfold parseFloatDec
  rw [pow_zero, div_one]
  exact roundDouble_natCast n h

/-- Multiplying exactly-represented naturals whose product stays below
`2 ^ 53` is exact in binary64. -/
lemma jsMul_nat (a b : Nat) (h : a * b < 2 ^ 53) :
    jsMul (a : ℚ) (b : ℚ) = ((a * b : ℕ) : ℚ) := by
  unfold jsMul
  rw [← Nat.cast_mul]
  exact roundDouble_natCast (a * b) h

/-- Reduction of `parseBitrate` through a successful match. -/
lemma parseBitrate_eq_of_match (s : String) (n e m : Nat)
    (h : bitrateMatch s = some (n, e, m)) :
    parseBitrate s =
      if m = 1 then (⌊parseFloatDec n e⌋).toNat
      else (⌊jsMul (parseFloatDec n e) ((m : ℚ))⌋).toNat := by
  unfold parseBitrate
  rw [h]

/-- Appending a character that fails the test does not change the
retained prefix. -/
lemma takeWhile_snoc_neg (p : Char → Bool) (c : Char) (hc : p c = false)
    (l : List Char) : (l ++ [c]).takeWhile p = l.takeWhile p := by
  induction l with
  | nil => simp [List.takeWhile_cons, hc]
  | cons a t ih =>
      rw [List.cons_append, List.takeWhile_cons, List.takeWhile_cons]
      cases hpa : p a with
      | false => simp [hpa]
      | true => simp [hpa, ih]

/-- Appending a character that fails the test lands it at the end of the
dropped remainder. -/
lemma dropWhile_snoc_neg (p : Char → Bool) (c : Char) (hc : p c = false)
    (l : List Char) : (l ++ [c]).dropWhile p = l.dropWhile p ++ [c] := by
  induction l with
  | nil => simp [List.dropWhile_cons, hc]
  | cons a t ih =>
      rw [List.cons_append, List.dropWhile_cons, List.dropWhile_cons]
      cases hpa : p a with
      | false => simp [hpa]
      | true => simp [hpa, ih]

/-- Appending a non-digit, non-dot character to any input shifts it onto
the end of the unconsumed remainder of the decimal read (and keeps a
failing read failing). -/
lemma readDecimal_snoc (l : List Char) (c : Char)
    (hndb : c.isDigit = false) (hdot : c ≠ '.') :
    readDecimal (l ++ [c]) =
      (readDecimal l).map (fun x => (x.1, x.2.1, x.2.2 ++ [c])) := by
  unfold readDecimal
  rw [takeWhile_snoc_neg _ _ hndb l, dropWhile_snoc_neg _ _ hndb l]
  by_cases hd1 : (l.takeWhile Char.isDigit).isEmpty
  · simp [hd1]
  · rcases hr1 : l.dropWhile Char.isDigit with _ | ⟨c0, r2⟩
    · simp [hd1, hdot]
    · by_cases hc0 : c0 = '.'
      · subst hc0
        by_cases hd2 : (r2.takeWhile Char.isDigit).isEmpty
        · simp [hd1, hd2, takeWhile_snoc_neg _ _ hndb]
        · simp [hd1, hd2, takeWhile_snoc_neg _ _ hndb, dropWhile_snoc_neg _ _ hndb]
      · simp [hd1, hc0]

/-- The `K`/`k` and `M`/`m` suffixes produce identical matches on every
input: the matcher treats the unit character case-insensitively. -/
lemma bitrateMatch_case_insens (s : String) :
    bitrateMatch (s ++ "K") = bitrateMatch (s ++ "k") ∧
    bitrateMatch (s ++ "M") = bitrateMatch (s ++ "m") := by
  unfold bitrateMatch
  rw [show (s ++ "K").data = s.data ++ ['K'] from by simp,
    show (s ++ "k").data = s.data ++ ['k'] from by simp,
    show (s ++ "M").data = s.data ++ ['M'] from by simp,
    show (s ++ "m").data = s.data ++ ['m'] from by simp,
    readDecimal_snoc s.data 'K' (by decide) (by decide),
    readDecimal_snoc s.data 'k' (by decide) (by decide),
    readDecimal_snoc s.data 'M' (by decide) (by decide),
    readDecimal_snoc s.data 'm' (by decide) (by decide)]
  rcases readDecimal s.data with _ | ⟨⟨n, e, rest⟩⟩
  · exact ⟨rfl, rfl⟩
  · rcases rest with _ | ⟨x, _ | ⟨y, t⟩⟩
    · exact ⟨rfl, rfl⟩
    · exact ⟨rfl, rfl⟩
    · exact ⟨rfl, rfl⟩

/-- Case-insensitivity of the unit suffix lifts from the matcher to the
parsed value. -/
lemma parseBitrate_case_insens (s : String) :
    parseBitrate (s ++ "K") = parseBitrate (s ++ "k") ∧
    parseBitrate (s ++ "M") = parseBitrate (s ++ "m") := by
  constructor
  · unfold parseBitrate
    rw [(bitrateMatch_case_insens s).1]
  · unfold parseBitrate
    rw [(bitrateMatch_case_insens s).2]

/-- Binary64 value of the decimal `1.005`: the exact value sits 48% of
the way between consecutive doubles and rounds down to significand
4526117625507348. -/
lemma roundDouble_1005 :
    roundDouble (1005 / 1000 : ℚ) = 4526117625507348 / 2 ^ 52 := by
  have hfl : (⌊(1005 / 1000 : ℚ)⌋) = 1 := by norm_num
  have hlog : Nat.log2 (⌊(1005 / 1000 : ℚ)⌋).toNat = 0 := by
    rw [hfl]
    exact log2_eq_of_bracket 1 0 (by norm_num) (by norm_num)
  have hrne : rne ((1005 / 1000 : ℚ) * 2 ^ 52 / 2 ^ 0) = 4526117625507348 := by
    have hx : ((1005 / 1000 : ℚ) * 2 ^ 52 / 2 ^ 0) = 113152940637683712 / 25 := by
      norm_num
    rw [hx]
    unfold rne
    have hfl2 : ⌊(113152940637683712 / 25 : ℚ)⌋ = 4526117625507348 := by norm_num
    rw [hfl2, if_neg (by norm_num), round_eq]
    norm_num
  have h := roundDouble_eval (1005 / 1000 : ℚ) 0 4526117625507348 (by norm_num)
    hlog hrne (by norm_num)
  rw [h]
  norm_num

/-- Binary64 product of the double nearest `1.005` with 1000: the exact
product falls a 16th of the way between consecutive doubles and rounds
down, to `1005 - 2 ^ (-43)`. -/
lemma roundDouble_1005_times_1000 :
    roundDouble (4526117625507348000 / 2 ^ 52 : ℚ) = 8840073487319039 / 2 ^ 43 := by
  have hfl : (⌊(4526117625507348000 / 2 ^ 52 : ℚ)⌋) = 1004 := by norm_num
  have hlog : Nat.log2 (⌊(4526117625507348000 / 2 ^ 52 : ℚ)⌋).toNat = 9 := by
    rw [hfl]
    exact log2_eq_of_bracket 1004 9 (by norm_num) (by norm_num)
  have hrne : rne ((4526117625507348000 / 2 ^ 52 : ℚ) * 2 ^ 52 / 2 ^ 9) =
      8840073487319039 := by
    have hx : ((4526117625507348000 / 2 ^ 52 : ℚ) * 2 ^ 52 / 2 ^ 9) =
        141441175797104625 / 16 := by norm_num
    rw [hx]
    unfold rne
    have hfl2 : ⌊(141441175797104625 / 16 : ℚ)⌋ = 8840073487319039 := by norm_num
    rw [hfl2, if_neg (by norm_num), round_eq]
    norm_num
  have h := roundDouble_eval (4526117625507348000 / 2 ^ 52 : ℚ) 9 8840073487319039
    (by norm_num) hlog hrne (by norm_num)
  rw [h]
  norm_num

/-- C5 (counterexample): `"1.005k"` is a well-formed decimal with the `k`
suffix — mantissa 1005, three fractional digits — whose exact value times
1000 is the integer 1005; but the source's double arithmetic (`parseFloat`
rounds `1.005` down to the nearest binary64, and the product with 1000
lands just below 1005) floors to 1004.  The `k` suffix is therefore not an
exact ×1000 on every well-formed input, as the sentence's unqualified
'every input string' scope would have it. -/
theorem parseBitrate_fractional_cex :
    decRead ("1.005") = some (1005, 3) ∧
    (1005 : ℚ) / 10 ^ 3 * 1000 = 1005 ∧
    parseBitrate ("1.005k") = 1004 := by
  refine ⟨by decide, by norm_num, ?_⟩
  have hbm : bitrateMatch ("1.005k") = some (1005, 3, 1000) := by decide
  rw [parseBitrate_eq_of_match _ 1005 3 1000 hbm, if_neg (by norm_num)]
  have hv : parseFloatDec 1005 3 = 4526117625507348 / 2 ^ 52 := by
    unfold parseFloatDec
    rw [show (((1005 : ℕ) : ℚ)) / 10 ^ 3 = 1005 / 1000 from by norm_num, roundDouble_1005]
  rw [hv]
  have hm : jsMul (4526117625507348 / 2 ^ 52 : ℚ) ((1000 : ℕ) : ℚ) =
      8840073487319039 / 2 ^ 43 := by
    unfold jsMul
    rw [show (4526117625507348 / 2 ^ 52 : ℚ) * ((1000 : ℕ) : ℚ) =
        4526117625507348000 / 2 ^ 52 from by norm_num, roundDouble_1005_times_1000]
  rw [hm]
  have hfl : ⌊(8840073487319039 / 2 ^ 43 : ℚ)⌋ = 1004 := by norm_num
  rw [hfl]
  rfl

/-- C5: bitrate parsing is total (a plain function, never throwing):
`"800k"` parses to 800000, `"5000k"` to 5000000, `"2M"` to 2000000, any
string failing the number-with-optional-suffix match (empty, junk, a bad
suffix, an extra dot, embedded spaces) parses to 0, the `k`/`K` and
`m`/`M` suffixes are case-insensitive on every input, and on every
integer mantissa small enough that the double products are exact
(`n * 1000000 < 2 ^ 53`, which covers every bitrate string the ladder or
the spec mentions) the suffixes multiply by exactly 1000 and 1000000.
On fractional mantissas the multiplication holds only up to binary64
rounding: see the counterexample `"1.005k" = 1004`. -/
theorem parseBitrate_spec :
    parseBitrate ("800k") = 800000 ∧
    parseBitrate ("5000k") = 5000000 ∧
    parseBitrate ("2M") = 2000000 ∧
    parseBitrate ("") = 0 ∧
    parseBitrate ("abc") = 0 ∧
    parseBitrate ("12kb") = 0 ∧
    parseBitrate ("1.5.2k") = 0 ∧
    parseBitrate ("800 k") = 0 ∧
    (∀ s, bitrateMatch s = none → parseBitrate s = 0) ∧
    (∀ s, parseBitrate (s ++ "K") = parseBitrate (s ++ "k") ∧
      parseBitrate (s ++ "M") = parseBitrate (s ++ "m")) ∧
    (∀ s n, decRead s = some (n, 0) → n * 1000000 < 2 ^ 53 →
      parseBitrate s = n ∧
      parseBitrate (s ++ "k") = n * 1000 ∧
      parseBitrate (s ++ "K") = n * 1000 ∧
      parseBitrate (s ++ "m") = n * 1000000 ∧
      parseBitrate (s ++ "M") = n * 1000000) := by
  have key : ∀ (s : String) (n : Nat), decRead s = some (n, 0) →
      n * 1000000 < 2 ^ 53 →
      parseBitrate s = n ∧
      parseBitrate (s ++ "k") = n * 1000 ∧
      parseBitrate (s ++ "K") = n * 1000 ∧
      parseBitrate (s ++ "m") = n * 1000000 ∧
      parseBitrate (s ++ "M") = n * 1000000 := by
    intro s n h hb
    have hr := decRead_some s n 0 h
    have happ : ∀ c : Char, ¬ c.isDigit → c ≠ '.' →
        readDecimal (s.data ++ [c]) = some (n, 0, [c]) :=
      fun c h1 h2 => readDecimal_append s.data n 0 c h1 h2 hr
    have base : bitrateMatch s = some (n, 0, 1) := by
      unfold bitrateMatch
      rw [hr]
      rfl
    have bmk : bitrateMatch (s ++ "k") = some (n, 0, 1000) := by
      unfold bitrateMatch
      rw [show (s ++ "k").data = s.data ++ ['k'] from by simp,
        happ 'k' (by decide) (by decide)]
      rfl
    have bmK : bitrateMatch (s ++ "K") = some (n, 0, 1000) := by
      unfold bitrateMatch
      rw [show (s ++ "K").data = s.data ++ ['K'] from by simp,
        happ 'K' (by decide) (by decide)]
      rfl
    have bmm : bitrateMatch (s ++ "m") = some (n, 0, 1000000) := by
      unfold bitrateMatch
      rw [show (s ++ "m").data = s.data ++ ['m'] from by simp,
        happ 'm' (by decide) (by decide)]
      rfl
    have bmM : bitrateMatch (s ++ "M") = some (n, 0, 1000000) := by
      unfold bitrateMatch
      rw [show (s ++ "M").data = s.data ++ ['M'] from by simp,
        happ 'M' (by decide) (by decide)]
      rfl
    have hn53 : n < 2 ^ 53 :=
      lt_of_le_of_lt (le_mul_of_one_le_right (Nat.zero_le n) (by norm_num)) hb
    have hk53 : n * 1000 < 2 ^ 53 :=
      lt_of_le_of_lt (Nat.mul_le_mul le_rfl (by norm_num)) hb
    refine ⟨?_, ?_, ?_, ?_, ?_⟩
    · rw [parseBitrate_eq_of_match s n 0 1 base, if_pos rfl,
        parseFloatDec_nat n hn53, Int.floor_natCast, Int.toNat_natCast]
    · rw [parseBitrate_eq_of_match (s ++ "k") n 0 1000 bmk, if_neg (by norm_num),
        parseFloatDec_nat n hn53, jsMul_nat n 1000 hk53, Int.floor_natCast,
        Int.toNat_natCast]
    · rw [parseBitrate_eq_of_match (s ++ "K") n 0 1000 bmK, if_neg (by norm_num),
        parseFloatDec_nat n hn53, jsMul_nat n 1000 hk53, Int.floor_natCast,
        Int.toNat_natCast]
    · rw [parseBitrate_eq_of_match (s ++ "m") n 0 1000000 bmm, if_neg (by norm_num),
        parseFloatDec_nat n hn53, jsMul_nat n 1000000 hb, Int.floor_natCast,
        Int.toNat_natCast]
    · rw [parseBitrate_eq_of_match (s ++ "M") n 0 1000000 bmM, if_neg (by norm_num),
        parseFloatDec_nat n hn53, jsMul_nat n 1000000 hb, Int.floor_natCast,
        Int.toNat_natCast]
  refine ⟨?_, ?_, ?_, by decide, by decide, by decide, by decide, by decide,
    ?_, fun s => parseBitrate_case_insens s, key⟩
  · rw [show ("800k" : String) = "800" ++ "k" from by decide,
      (key ("800") 800 (by decide) (by norm_num)).2.1]
  · rw [show ("5000k" : String) = "5000" ++ "k" from by decide,
      (key ("5000") 5000 (by decide) (by norm_num)).2.1]
  · rw [show ("2M" : String) = "2" ++ "M" from by decide,
      (key ("2") 2 (by decide) (by norm_num)).2.2.2.2]
  · intro s hm
    unfold parseBitrate
    rw [hm]

/-- Witness for `parseBitrate_spec`: the integer decimal `800` (inside
the exactness bound), a malformed string, and an arbitrary string for the
case-insensitivity clause. -/
theorem parseBitrate_spec_witness :
    (decRead ("800") = some (800, 0) ∧ 800 * 1000000 < 2 ^ 53 ∧
      bitrateMatch ("xyz") = none) ∧
    (parseBitrate ("800") = 800 ∧
      parseBitrate ("800" ++ "k") = 800 * 1000 ∧
      parseBitrate ("800" ++ "K") = 800 * 1000 ∧
      parseBitrate ("800" ++ "m") = 800 * 1000000 ∧
      parseBitrate ("800" ++ "M") = 800 * 1000000) ∧
    parseBitrate ("xyz") = 0 ∧
    (parseBitrate ("7" ++ "K") = parseBitrate ("7" ++ "k") ∧
      parseBitrate ("7" ++ "M") = parseBitrate ("7" ++ "m")) :=
  ⟨⟨by decide, by norm_num, by decide⟩,
    parseBitrate_spec.2.2.2.2.2.2.2.2.2.2 ("800") 800 (by decide) (by norm_num),
    parseBitrate_spec.2.2.2.2.2.2.2.2.1 ("xyz") (by decide),
    parseBitrate_spec.2.2.2.2.2.2.2.2.2.1 ("7")⟩

/-- `String.join` of a cons. -/
lemma string_join_cons (a : String) (l : List String) :
    String.join (a :: l) = a ++ String.join l := by
  have key : ∀ (l : List String) (s t : String),
      l.foldl (fun r s => r ++ s) (s ++ t) = s ++ l.foldl (fun r s => r ++ s) t := by
    intro l
    induction l with
    | nil => intro s t; rfl
    | cons b r ih =>
        intro s t
        show r.foldl (fun r s => r ++ s) ((s ++ t) ++ b) = s ++ r.foldl (fun r s => r ++ s) (t ++ b)
        rw [String.append_assoc]
        exact ih s (t ++ b)
  show (a :: l).foldl (fun r s => r ++ s) "" = a ++ String.join l
  have : (a :: l).foldl (fun r s => r ++ s) "" = l.foldl (fun r s => r ++ s) ("" ++ a) := rfl
  rw [this, String.empty_append]
  have := key l a ""
  rw [String.append_empty] at this
  exact this

/-- A left fold that appends one rendered chunk per element equals the
initial string followed by the join of all chunks. -/
lemma foldl_append_eq_join {α : Type} (f : α → String) :
    ∀ (l : List α) (init : String),
      l.foldl (fun acc x => acc ++ f x) init = init ++ String.join (l.map f) := by
  intro l
  induction l with
  | nil => intro init; simp [String.join]
  | cons a r ih =>
      intro init
      show r.foldl (fun acc x => acc ++ f x) (init ++ f a) = init ++ String.join (f a :: r.map f)
      rw [ih (init ++ f a), string_join_cons, String.append_assoc]

/-- Selection always returns a sublist of the ladder. -/
lemma selectQualities_sublist (ladder : List QualityLevel) (H : Nat) :
    (selectQualities ladder H).Sublist ladder := by
  unfold selectQualities
  by_cases h : (ladder.filter (fun q => q.height ≤ H)).isEmpty
  · simp only [h, if_true]
    exact List.take_sublist 1 ladder
  · simp only [h, if_neg, Bool.false_eq_true, not_false_iff, if_false]
    exact List.filter_sublist ladder

/-- C4: for a sorted ladder, the master manifest is the fixed header
followed by the joined per-profile chunks of the selected profiles, one
chunk per selected profile in ascending-height order; each chunk is one
stream-info record whose bandwidth is the parsed video bitrate plus the
parsed audio bitrate and whose resolution is `⌊height·16/9⌋ × height`,
followed by the relative reference `<name>/playlist.m3u8`. -/
theorem generateMasterPlaylist_spec (ladder : List QualityLevel) (H : Nat) (pfx : String)
    (hsorted : ladder.Sorted (fun a b => a.height < b.height)) :
    generateMasterPlaylist (selectQualities ladder H) pfx =
      "#EXTM3U\n#EXT-X-VERSION:3\n\n" ++
        String.join ((selectQualities ladder H).map masterPlaylistEntry) ∧
    ((selectQualities ladder H).map masterPlaylistEntry).length =
      (selectQualities ladder H).length ∧
    (selectQualities ladder H).Sorted (fun a b => a.height < b.height) ∧
    (∀ q : QualityLevel, masterPlaylistEntry q =
      "#EXT-X-STREAM-INF:BANDWIDTH=" ++
        toString (parseBitrate q.videoBitrate + parseBitrate q.audioBitrate) ++
        ",RESOLUTION=" ++ toString (q.height * 16 / 9) ++ "x" ++ toString q.height ++
        ",NAME=\"" ++ q.name ++ "\"\n" ++ (q.name ++ "/playlist.m3u8\n\n")) := by
  refine ⟨?_, List.length_map _ _, hsorted.sublist (selectQualities_sublist ladder H),
    fun q => rfl⟩
  unfold generateMasterPlaylist
  exact foldl_append_eq_join masterPlaylistEntry (selectQualities ladder H) _

/-- Witness for `generateMasterPlaylist_spec`: the default ladder at source
height 1080. -/
theorem generateMasterPlaylist_spec_witness :
    DEFAULT_QUALITIES.Sorted (fun a b => a.height < b.height) ∧
    (generateMasterPlaylist (selectQualities DEFAULT_QUALITIES 1080) ("output/job-1/") =
      "#EXTM3U\n#EXT-X-VERSION:3\n\n" ++
        String.join ((selectQualities DEFAULT_QUALITIES 1080).map masterPlaylistEntry) ∧
    ((selectQualities DEFAULT_QUALITIES 1080).map masterPlaylistEntry).length =
      (selectQualities DEFAULT_QUALITIES 1080).length ∧
    (selectQualities DEFAULT_QUALITIES 1080).Sorted (fun a b => a.height < b.height) ∧
    (∀ q : QualityLevel, masterPlaylistEntry q =
      "#EXT-X-STREAM-INF:BANDWIDTH=" ++
        toString (parseBitrate q.videoBitrate + parseBitrate q.audioBitrate) ++
        ",RESOLUTION=" ++ toString (q.height * 16 / 9) ++ "x" ++ toString q.height ++
        ",NAME=\"" ++ q.name ++ "\"\n" ++ (q.name ++ "/playlist.m3u8\n\n"))) :=
  ⟨by decide,
    generateMasterPlaylist_spec DEFAULT_QUALITIES 1080 ("output/job-1/") (by decide)⟩

/-- C6: the cue sidecar is the `WEBVTT` header followed by one cue per
sampled frame; cue `i` covers the time range from `i·interval` to
`(i+1)·interval` and maps to the sprite sub-region
`((i mod 10)·160, ⌊i/10⌋·90, 160, 90)`, with both times rendered by the
zero-padded `HH:MM:SS.mmm` formatter — checked concretely at
`i = 0, 9, 10, 23` (interval 10), and the formatter checked on fractional
and hour-crossing inputs. -/
theorem generateThumbnailVTT_spec :
    (∀ (count : Nat) (interval : ℚ),
      generateThumbnailVTT count interval 10 =
        "WEBVTT\n\n" ++ String.join ((List.range count).map (vttCue 10 interval))) ∧
    (∀ (interval : ℚ) (i : Nat), vttCue 10 interval i =
      formatVTTTime ((i : ℚ) * interval) ++ " --> " ++
        formatVTTTime (((i : ℚ) + 1) * interval) ++ "\n" ++
        "sprites.jpg#xywh=" ++ toString (i % 10 * 160) ++ "," ++ toString (i / 10 * 90) ++
        "," ++ toString 160 ++ "," ++ toString 90 ++ "\n\n") ∧
    vttCue 10 10 0 = "00:00:00.000 --> 00:00:10.000\nsprites.jpg#xywh=0,0,160,90\n\n" ∧
    vttCue 10 10 9 = "00:01:30.000 --> 00:01:40.000\nsprites.jpg#xywh=1440,0,160,90\n\n" ∧
    vttCue 10 10 10 = "00:01:40.000 --> 00:01:50.000\nsprites.jpg#xywh=0,90,160,90\n\n" ∧
    vttCue 10 10 23 = "00:03:50.000 --> 00:04:00.000\nsprites.jpg#xywh=480,180,160,90\n\n" ∧
    formatVTTTime (5 / 2) = "00:00:02.500" ∧
    formatVTTTime 3725 = "01:02:05.000" := by
  refine ⟨?_, fun interval i => rfl, ?_, ?_, ?_, ?_, ?_, ?_⟩
  · intro count interval
    unfold generateThumbnailVTT
    exact foldl_append_eq_join (vttCue 10 interval) (List.range count) _
  · norm_num [vttCue, formatVTTTime, jsMod]
    decide
  · norm_num [vttCue, formatVTTTime, jsMod]
    decide
  · norm_num [vttCue, formatVTTTime, jsMod]
    decide
  · norm_num [vttCue, formatVTTTime, jsMod]
    decide
  · norm_num [formatVTTTime, jsMod]
    decide
  · norm_num [formatVTTTime, jsMod]
    decide

/-- C8 (divergence witness): submitting a job without a result-key
namespace creates the job with status `pending`, but the stored prefix is
`output/<u0>/` where `u0` is a UUID drawn *before* `createJob`, while the
returned job's id is the *next* UUID `u1`; the prefix therefore does not
embed the id of the returned job (contradicting the handler's own comment
`defaults to "output/\x7bjobId\x7d/"`). -/
theorem createJobEndpoint_prefix_divergence :
    (createJobEndpoint { sourceUrl := "s3://src" } (fun k => "uuid-" ++ toString k) 0).status =
      JobStatus.pending ∧
    (createJobEndpoint { sourceUrl := "s3://src" } (fun k => "uuid-" ++ toString k) 0).resultKeyPrefix =
      "output/uuid-0/" ∧
    (createJobEndpoint { sourceUrl := "s3://src" } (fun k => "uuid-" ++ toString k) 0).id =
      "uuid-1" ∧
    (createJobEndpoint { sourceUrl := "s3://src" } (fun k => "uuid-" ++ toString k) 0).resultKeyPrefix ≠
      "output/" ++
        (createJobEndpoint { sourceUrl := "s3://src" } (fun k => "uuid-" ++ toString k) 0).id ++
        "/" := by
  refine ⟨rfl, rfl, rfl, ?_⟩
  decide

/-- C9 (counterexample): a mutation performed at a clock instant equal to
the job's current `updatedAt` (two same-millisecond `Date.now()` readings)
leaves `updatedAt` unchanged: it is not strictly greater after the
mutation.  `updateJob` exhibits the same non-increase on a registry. -/
theorem updateJob_updatedAt_not_strict :
    (applyPatch (createJob "a" "s" "p" none 5) { status := some .processing } 5).updatedAt =
      (createJob "a" "s" "p" none 5).updatedAt ∧
    ¬ ((createJob "a" "s" "p" none 5).updatedAt <
      (applyPatch (createJob "a" "s" "p" none 5) { status := some .processing } 5).updatedAt) ∧
    updateJob [("a", createJob "a" "s" "p" none 5)] "a" { status := some .processing } 5 =
      [("a", applyPatch (createJob "a" "s" "p" none 5) { status := some .processing } 5)] := by
  refine ⟨rfl, by decide, ?_⟩
  rfl

/-- C9 (amended): every mutation stamps `updatedAt` with the clock value
read during the mutation, so `updatedAt` strictly increases across a
mutation exactly when the clock has strictly advanced past the job's
previous `updatedAt`; with a non-advanced clock it stays put. -/
theorem updateJob_updatedAt_clock (j : Job) (p : JobPatch) (now : Nat) :
    (applyPatch j p now).updatedAt = now ∧
    (j.updatedAt < now → j.updatedAt < (applyPatch j p now).updatedAt) :=
  ⟨rfl, fun h => h⟩

/-- Witness for `updateJob_updatedAt_clock`: a mutation with an advanced
clock. -/
theorem updateJob_updatedAt_clock_witness :
    (createJob "a" "s" "p" none 5).updatedAt < 7 ∧
    ((applyPatch (createJob "a" "s" "p" none 5) { status := some .processing } 7).updatedAt = 7 ∧
      ((createJob "a" "s" "p" none 5).updatedAt < 7 →
        (createJob "a" "s" "p" none 5).updatedAt <
          (applyPatch (createJob "a" "s" "p" none 5) { status := some .processing } 7).updatedAt)) :=
  ⟨by decide, updateJob_updatedAt_clock (createJob "a" "s" "p" none 5)
    { status := some .processing } 7⟩

/-- C10: `updateJob` on an id absent from the registry returns the registry
unchanged (and, being a total function, raises no error); `applyPatch`
writes exactly the present patch fields plus `updatedAt`: every field whose
patch entry is `none` keeps its previous value. -/
theorem updateJob_frame (registry : List (String × Job)) (id : String)
    (j : Job) (p : JobPatch) (now : Nat) :
    (List.lookup id registry = none → updateJob registry id p now = registry) ∧
    (p.id = none → (applyPatch j p now).id = j.id) ∧
    (p.sourceUrl = none → (applyPatch j p now).sourceUrl = j.sourceUrl) ∧
    (p.resultKeyPrefix = none → (applyPatch j p now).resultKeyPrefix = j.resultKeyPrefix) ∧
    (p.webhookUrl = none → (applyPatch j p now).webhookUrl = j.webhookUrl) ∧
    (p.status = none → (applyPatch j p now).status = j.status) ∧
    (p.progress = none → (applyPatch j p now).progress = j.progress) ∧
    (p.createdAt = none → (applyPatch j p now).createdAt = j.createdAt) ∧
    (p.resultFiles = none → (applyPatch j p now).resultFiles = j.resultFiles) ∧
    (p.posterUrl = none → (applyPatch j p now).posterUrl = j.posterUrl) ∧
    (p.thumbnailsVtt = none → (applyPatch j p now).thumbnailsVtt = j.thumbnailsVtt) ∧
    (p.error = none → (applyPatch j p now).error = j.error) ∧
    (applyPatch j p now).updatedAt = now := by
  refine ⟨?_, ?_, ?_, ?_, ?_, ?_, ?_, ?_, ?_, ?_, ?_, ?_, rfl⟩
  · intro h
    unfold updateJob
    rw [h]
  all_goals intro h
  all_goals simp [applyPatch, h]

/-- Witness for `updateJob_frame`: a status-only patch against a one-entry
registry under a missing id. -/
theorem updateJob_frame_witness :
    (List.lookup "missing" [("a", createJob "a" "s" "p" none 5)] = none →
      updateJob [("a", createJob "a" "s" "p" none 5)] "missing"
        { status := some .done } 9 = [("a", createJob "a" "s" "p" none 5)]) ∧
    (({ status := some JobStatus.done : JobPatch }).id = none →
      (applyPatch (createJob "a" "s" "p" none 5) { status := some .done } 9).id =
        (createJob "a" "s" "p" none 5).id) ∧
    (({ status := some JobStatus.done : JobPatch }).sourceUrl = none →
      (applyPatch (createJob "a" "s" "p" none 5) { status := some .done } 9).sourceUrl =
        (createJob "a" "s" "p" none 5).sourceUrl) ∧
    (({ status := some JobStatus.done : JobPatch }).resultKeyPrefix = none →
      (applyPatch (createJob "a" "s" "p" none 5) { status := some .done } 9).resultKeyPrefix =
        (createJob "a" "s" "p" none 5).resultKeyPrefix) ∧
    (({ status := some JobStatus.done : JobPatch }).webhookUrl = none →
      (applyPatch (createJob "a" "s" "p" none 5) { status := some .done } 9).webhookUrl =
        (createJob "a" "s" "p" none 5).webhookUrl) ∧
    (({ status := some JobStatus.done : JobPatch }).status = none →
      (applyPatch (createJob "a" "s" "p" none 5) { status := some .done } 9).status =
        (createJob "a" "s" "p" none 5).status) ∧
    (({ status := some JobStatus.done : JobPatch }).progress = none →
      (applyPatch (createJob "a" "s" "p" none 5) { status := some .done } 9).progress =
        (createJob "a" "s" "p" none 5).progress) ∧
    (({ status := some JobStatus.done : JobPatch }).createdAt = none →
      (applyPatch (createJob "a" "s" "p" none 5) { status := some .done } 9).createdAt =
        (createJob "a" "s" "p" none 5).createdAt) ∧
    (({ status := some JobStatus.done : JobPatch }).resultFiles = none →
      (applyPatch (createJob "a" "s" "p" none 5) { status := some .done } 9).resultFiles =
        (createJob "a" "s" "p" none 5).resultFiles) ∧
    (({ status := some JobStatus.done : JobPatch }).posterUrl = none →
      (applyPatch (createJob "a" "s" "p" none 5) { status := some .done } 9).posterUrl =
        (createJob "a" "s" "p" none 5).posterUrl) ∧
    (({ status := some JobStatus.done : JobPatch }).thumbnailsVtt = none →
      (applyPatch (createJob "a" "s" "p" none 5) { status := some .done } 9).thumbnailsVtt =
        (createJob "a" "s" "p" none 5).thumbnailsVtt) ∧
    (({ status := some JobStatus.done : JobPatch }).error = none →
      (applyPatch (createJob "a" "s" "p" none 5) { status := some .done } 9).error =
        (createJob "a" "s" "p" none 5).error) ∧
    (applyPatch (createJob "a" "s" "p" none 5) { status := some .done } 9).updatedAt = 9 :=
  updateJob_frame [("a", createJob "a" "s" "p" none 5)] "missing"
    (createJob "a" "s" "p" none 5) { status := some .done } 9

/-- The progress percentage formula as exact natural arithmetic:
`Math.round((c/t)·60) + 10 = ⌊(120c + t)/(2t)⌋ + 10`. -/
lemma transcodePct_eq (c t : Nat) (ht : 0 < t) :
    transcodePct c t = (120 * c + t) / (2 * t) + 10 := by
  unfold transcodePct jsRound
  have htQ : (t : ℚ) ≠ 0 := Nat.cast_ne_zero.mpr (Nat.pos_iff_ne_zero.mp ht)
  have harg : ((c : ℚ) / (t : ℚ)) * 60 + 1 / 2 =
      (((120 * c + t : ℕ) : ℤ) : ℚ) / ((2 * t : ℕ) : ℚ) := by
    push_cast
    field_simp
    ring
  rw [harg, Rat.floor_intCast_div_natCast, ← Int.ofNat_ediv, Int.toNat_natCast]

/-- Progress percentage is monotone in the completed-quality count. -/
lemma transcodePct_mono {a b : Nat} (t : Nat) (ht : 0 < t) (hab : a ≤ b) :
    transcodePct a t ≤ transcodePct b t := by
  rw [transcodePct_eq a t ht, transcodePct_eq b t ht]
  exact Nat.add_le_add_right (Nat.div_le_div_right (by omega)) 10

/-- With all qualities completed the percentage is exactly 70. -/
lemma transcodePct_top (t : Nat) (ht : 0 < t) : transcodePct t t = 70 := by
  rw [transcodePct_eq t t ht]
  have h1 : 120 * t + t = t + 2 * t * 60 := by ring
  rw [h1, Nat.add_mul_div_left _ _ (by omega : 0 < 2 * t),
    Nat.div_eq_of_lt (by omega : t < 2 * t)]

/-- Any in-range percentage is at most 70. -/
lemma transcodePct_le_70 (c t : Nat) (ht : 0 < t) (hct : c ≤ t) :
    transcodePct c t ≤ 70 :=
  le_of_le_of_eq (transcodePct_mono t ht hct) (transcodePct_top t ht)

/-- The percentage at zero completed qualities is 10. -/
lemma transcodePct_zero (t : Nat) (ht : 0 < t) : transcodePct 0 t = 10 := by
  rw [transcodePct_eq 0 t ht]
  rw [Nat.mul_zero, Nat.zero_add, Nat.div_eq_of_lt (by omega : t < 2 * t)]

/-- Selection of a non-empty ladder is non-empty. -/
lemma selectQualities_ne_nil (ladder : List QualityLevel) (H : Nat) (h : ladder ≠ []) :
    selectQualities ladder H ≠ [] := by
  unfold selectQualities
  by_cases hf : (ladder.filter (fun q => q.height ≤ H)).isEmpty
  · simp only [hf, if_true]
    cases ladder with
    | nil => exact absurd rfl h
    | cons a t => simp
  · simp only [hf, if_neg, Bool.false_eq_true, not_false_iff, if_false]
    intro hc
    rw [hc] at hf
    simp at hf

/-- When every encode in range succeeds, the loop reports one call per
quality, completes all of them in order, and collects all their files. -/
lemma encodeLoop_ok (env : TranscodeEnv) (pfx : String) (total : Nat) :
    ∀ (qs : List QualityLevel) (idx : Nat) (completed : List String),
      (∀ j, j < qs.length → env.encodeExit (idx + j) = 0) →
      encodeLoop env pfx total qs idx completed =
        ⟨expectedCalls total qs completed, completed ++ qs.map (fun q => q.name),
          .ok (expectedRenditionFiles env pfx qs idx)⟩ := by
  intro qs
  induction qs with
  | nil =>
      intro idx completed _
      simp [encodeLoop, expectedCalls, expectedRenditionFiles]
  | cons q rest ih =>
      intro idx completed h
      have h0 : env.encodeExit idx = 0 := by
        have := h 0 (Nat.succ_pos _)
        simpa using this
      have hrest : ∀ j, j < rest.length → env.encodeExit (idx + 1 + j) = 0 := by
        intro j hj
        rw [show idx + 1 + j = idx + (j + 1) by omega]
        exact h (j + 1) (by simpa using Nat.succ_lt_succ hj)
      simp only [encodeLoop, if_pos h0, ih (idx + 1) (completed ++ [q.name]) hrest]
      simp [expectedCalls, expectedRenditionFiles, Except.map]

/-- In any environment the loop's reported completed-counts are an initial
run `completed.length, completed.length+1, …` with the constant total, of
length at most the number of qualities — and exactly that number when the
loop returns files. -/
lemma encodeLoop_lens (env : TranscodeEnv) (pfx : String) (total : Nat) :
    ∀ (qs : List QualityLevel) (idx : Nat) (completed : List String),
      ∃ m, m ≤ qs.length ∧
        (encodeLoop env pfx total qs idx completed).calls.map
          (fun c => (c.2.1.length, c.2.2)) =
          (List.range m).map (fun j => (completed.length + j, total)) ∧
        (∀ fs, (encodeLoop env pfx total qs idx completed).result = .ok fs →
          m = qs.length) := by
  intro qs
  induction qs with
  | nil =>
      intro idx completed
      exact ⟨0, by simp, by simp [encodeLoop], fun fs _ => rfl⟩
  | cons q rest ih =>
      intro idx completed
      by_cases h0 : env.encodeExit idx = 0
      · obtain ⟨m, hm, hlens, hok⟩ := ih (idx + 1) (completed ++ [q.name])
        refine ⟨m + 1, by simpa using Nat.succ_le_succ hm, ?_, ?_⟩
        · simp only [encodeLoop, if_pos h0, List.map_cons, hlens]
          rw [List.range_succ_eq_map, List.map_cons, List.map_map]
          simp only [Nat.add_zero, List.length_append, List.length_cons, List.length_nil]
          refine congrArg₂ List.cons rfl ?_
          apply List.map_congr_left
          intro j hj
          simp only [Function.comp_apply, Prod.mk.injEq]
          exact ⟨by omega, trivial⟩
        · intro fs hfs
          simp only [encodeLoop, if_pos h0] at hfs
          rcases hr : (encodeLoop env pfx total rest (idx + 1) (completed ++ [q.name])).result
            with e | fs'
          · rw [hr] at hfs
            simp [Except.map] at hfs
          · simp [hok fs' hr, List.length_cons]
      · refine ⟨1, by simp, ?_, ?_⟩
        · simp [encodeLoop, if_neg h0, List.range_succ]
        · intro fs hfs
          simp only [encodeLoop, if_neg h0] at hfs
          simp at hfs

/-- If the first failing encode is the `i`-th quality, the loop throws the
ffmpeg failure message for exactly that quality. -/
lemma encodeLoop_fail (env : TranscodeEnv) (pfx : String) (total : Nat) :
    ∀ (qs : List QualityLevel) (idx : Nat) (completed : List String) (i : Nat)
      (hi : i < qs.length),
      env.encodeExit (idx + i) ≠ 0 →
      (∀ j, j < i → env.encodeExit (idx + j) = 0) →
      (encodeLoop env pfx total qs idx completed).result =
        .error (ffmpegFailMsg (qs.get ⟨i, hi⟩).name (env.encodeExit (idx + i))
          (env.encodeStderr (idx + i))) := by
  intro qs
  induction qs with
  | nil =>
      intro idx completed i hi
      exact absurd hi (by simp)
  | cons q rest ih =>
      intro idx completed i hi hfail hmin
      cases i with
      | zero =>
          have h0 : env.encodeExit idx ≠ 0 := by simpa using hfail
          simp [encodeLoop, if_neg h0, List.get]
      | succ i' =>
          have h0 : env.encodeExit idx = 0 := by
            have := hmin 0 (Nat.succ_pos _)
            simpa using this
          have hi' : i' < rest.length := by simpa using Nat.lt_of_succ_lt_succ hi
          have hrec := ih (idx + 1) (completed ++ [q.name]) i' hi'
            (by rw [show idx + 1 + i' = idx + (i' + 1) by omega]; exact hfail)
            (fun j hj => by
              rw [show idx + 1 + j = idx + (j + 1) by omega]
              exact hmin (j + 1) (by omega))
          simp only [encodeLoop, if_pos h0]
          rw [show idx + (i' + 1) = idx + 1 + i' by omega]
          simp only [hrec, Except.map, List.get]

/-- With a successful duration probe, `generateThumbnails` returns its
artifact list. -/
lemma generateThumbnails_ok (env : TranscodeEnv) (interval : ℚ)
    (hdur : env.durationOk = true) :
    generateThumbnails env interval = .ok (genThumbsList env interval) := by
  unfold generateThumbnails genThumbsList
  rw [if_pos hdur]

/-- With a zero scrub-thumbnail count, the thumbnail stage produces the
poster alone (when poster extraction succeeded): no sprite sheet and no cue
sidecar. -/
lemma genThumbsList_zero (env : TranscodeEnv) (interval : ℚ)
    (hcount : scrubThumbCount env.duration interval = 0)
    (hposter : env.posterOk = true) :
    genThumbsList env interval = [("poster.jpg", "image/jpeg")] := by
  unfold genThumbsList
  rw [if_pos hposter, hcount]
  simp

/-- Successful run of `transcodeToHLS` under the orchestrator's options:
one progress call per selected quality plus the thumbnails call, and the
artifact list is the rendition files, the master playlist, and the
thumbnail files. -/
lemma transcode_run_ok (env : TranscodeEnv) (pfx : String)
    (hprobe : env.probeOk = true)
    (henc : ∀ j, j < (selectQualities DEFAULT_QUALITIES env.sourceHeight).length →
      env.encodeExit j = 0)
    (hdur : env.durationOk = true) :
    transcodeToHLS env (orchestratorOpts pfx) =
      ⟨expectedCalls (selectQualities DEFAULT_QUALITIES env.sourceHeight).length
          (selectQualities DEFAULT_QUALITIES env.sourceHeight) [] ++
        [("thumbnails",
          (selectQualities DEFAULT_QUALITIES env.sourceHeight).map (fun q => q.name),
          (selectQualities DEFAULT_QUALITIES env.sourceHeight).length)],
        .ok (expectedRenditionFiles env pfx
            (selectQualities DEFAULT_QUALITIES env.sourceHeight) 0 ++
          [{ key := pfx ++ "master.m3u8", contentType := "application/x-mpegURL" }] ++
          (genThumbsList env 10).map
            (fun t => { key := pfx ++ t.1, contentType := t.2 }))⟩ := by
  have hsel : ∀ j, j < (selectQualities DEFAULT_QUALITIES env.sourceHeight).length →
      env.encodeExit (0 + j) = 0 := by
    intro j hj
    rw [Nat.zero_add]
    exact henc j hj
  unfold transcodeToHLS orchestratorOpts
  rw [if_pos hprobe]
  simp only [Option.getD_none, Option.getD_some]
  rw [encodeLoop_ok env pfx _ _ 0 [] hsel]
  simp only [List.nil_append]
  rw [generateThumbnails_ok env 10 hdur]
  simp

/-- Resolution-probe failure throws before any progress call. -/
lemma transcode_run_probeFail (env : TranscodeEnv) (pfx : String)
    (hprobe : env.probeOk = false) :
    transcodeToHLS env (orchestratorOpts pfx) =
      ⟨[], .error ("Failed to probe video resolution")⟩ := by
  unfold transcodeToHLS orchestratorOpts
  rw [if_neg (by simp [hprobe])]

/-- A first encode failure at selected quality `i` makes `transcodeToHLS`
throw that quality's ffmpeg message, with only the loop's progress calls
made. -/
lemma transcode_run_encodeFail (env : TranscodeEnv) (pfx : String)
    (hprobe : env.probeOk = true) (i : Nat)
    (hi : i < (selectQualities DEFAULT_QUALITIES env.sourceHeight).length)
    (hfail : env.encodeExit i ≠ 0)
    (hmin : ∀ j, j < i → env.encodeExit j = 0) :
    transcodeToHLS env (orchestratorOpts pfx) =
      ⟨(encodeLoop env pfx (selectQualities DEFAULT_QUALITIES env.sourceHeight).length
          (selectQualities DEFAULT_QUALITIES env.sourceHeight) 0 []).calls,
        .error (ffmpegFailMsg
          ((selectQualities DEFAULT_QUALITIES env.sourceHeight).get ⟨i, hi⟩).name
          (env.encodeExit i) (env.encodeStderr i))⟩ := by
  have hres := encodeLoop_fail env pfx
    (selectQualities DEFAULT_QUALITIES env.sourceHeight).length
    (selectQualities DEFAULT_QUALITIES env.sourceHeight) 0 [] i hi
    (by simpa using hfail) (fun j hj => by simpa using hmin j hj)
  rw [Nat.zero_add] at hres
  unfold transcodeToHLS orchestratorOpts
  rw [if_pos hprobe]
  simp only [Option.getD_none, Option.getD_some]
  rw [hres]

/-- A duration-probe failure after all encodes succeed throws after the
thumbnails progress call. -/
lemma transcode_run_durFail (env : TranscodeEnv) (pfx : String)
    (hprobe : env.probeOk = true)
    (henc : ∀ j, j < (selectQualities DEFAULT_QUALITIES env.sourceHeight).length →
      env.encodeExit j = 0)
    (hdur : env.durationOk = false) :
    transcodeToHLS env (orchestratorOpts pfx) =
      ⟨expectedCalls (selectQualities DEFAULT_QUALITIES env.sourceHeight).length
          (selectQualities DEFAULT_QUALITIES env.sourceHeight) [] ++
        [("thumbnails",
          (selectQualities DEFAULT_QUALITIES env.sourceHeight).map (fun q => q.name),
          (selectQualities DEFAULT_QUALITIES env.sourceHeight).length)],
        .error ("Failed to get video duration")⟩ := by
  have hsel : ∀ j, j < (selectQualities DEFAULT_QUALITIES env.sourceHeight).length →
      env.encodeExit (0 + j) = 0 := by
    intro j hj
    rw [Nat.zero_add]
    exact henc j hj
  unfold transcodeToHLS orchestratorOpts
  rw [if_pos hprobe]
  simp only [Option.getD_none, Option.getD_some]
  rw [encodeLoop_ok env pfx _ _ 0 [] hsel]
  simp only [List.nil_append]
  rw [show generateThumbnails env 10 = .error ("Failed to get video duration") from by
    unfold generateThumbnails
    rw [if_neg (by simp [hdur])]]
  simp

/-- Splitting a patch sequence. -/
lemma applyPatchList_append (clock : Nat → Nat) :
    ∀ (ps qs : List JobPatch) (k : Nat) (j : Job),
      applyPatchList clock k j (ps ++ qs) =
        applyPatchList clock (k + ps.length) (applyPatchList clock k j ps) qs := by
  intro ps
  induction ps with
  | nil =>
      intro qs k j
      simp [applyPatchList]
  | cons p r ih =>
      intro qs k j
      simp only [List.cons_append, applyPatchList, List.append_eq]
      rw [ih qs (k + 1) (applyPatch j p (clock k)),
        show k + (p :: r).length = k + 1 + r.length from by simp; omega]

/-- A job field not named by any patch in a sequence is unchanged by
applying the sequence. -/
lemma applyPatchList_field {α β : Type} (f : Job → α) (g : JobPatch → Option β)
    (hcompat : ∀ j p now, g p = none → f (applyPatch j p now) = f j)
    (clock : Nat → Nat) :
    ∀ (ps : List JobPatch) (k : Nat) (j : Job),
      (∀ p ∈ ps, g p = none) → f (applyPatchList clock k j ps) = f j := by
  intro ps
  induction ps with
  | nil =>
      intro k j _
      rfl
  | cons p r ih =>
      intro k j h
      simp only [applyPatchList]
      rw [ih (k + 1) _ (fun q hq => h q (List.mem_cons_of_mem p hq))]
      exact hcompat j p (clock k) (h p (List.mem_cons_self p r))

/-- `strEndsWith` as a suffix proposition. -/
lemma strEndsWith_iff (s p : String) : strEndsWith s p = true ↔ p.data <:+ s.data := by
  simp [strEndsWith]

/-- A string ends with its own appended suffix. -/
lemma strEndsWith_append_self (x p : String) : strEndsWith (x ++ p) p = true := by
  rw [strEndsWith_iff, String.data_append]
  exact List.suffix_append x.data p.data

/-- A string whose last character differs from the pattern's last character
does not end with the pattern. -/
lemma strEndsWith_false_of_last (s p : String) (c c' : Char)
    (hs : s.data.getLast? = some c) (hp : p.data.getLast? = some c') (hne : c ≠ c') :
    strEndsWith s p = false := by
  simp only [strEndsWith, decide_eq_false_iff_not]
  intro hsuf
  obtain ⟨u, hu⟩ := hsuf
  rw [← hu, List.getLast?_append, hp] at hs
  simp only [Option.or_some, Option.some.injEq] at hs
  exact hne hs.symm

/-- Last character of a key of the form `pfx ++ name ++ "/" ++ file`. -/
lemma key_getLast (pfx nm f : String) (c : Char) (hf : f.data.getLast? = some c) :
    (pfx ++ nm ++ "/" ++ f).data.getLast? = some c := by
  rw [String.data_append, List.getLast?_append, hf]
  rfl

/-- Progress-call counts reported by `expectedCalls`. -/
lemma expectedCalls_lens (total : Nat) :
    ∀ (qs : List QualityLevel) (completed : List String),
      (expectedCalls total qs completed).map (fun c => (c.2.1.length, c.2.2)) =
        (List.range qs.length).map (fun j => (completed.length + j, total)) := by
  intro qs
  induction qs with
  | nil =>
      intro completed
      simp [expectedCalls]
  | cons q rest ih =>
      intro completed
      simp only [expectedCalls, List.map_cons, ih (completed ++ [q.name]), List.length_cons]
      rw [List.range_succ_eq_map, List.map_cons, List.map_map]
      simp only [Nat.add_zero, List.length_append, List.length_cons, List.length_nil]
      refine congrArg₂ List.cons rfl ?_
      apply List.map_congr_left
      intro j hj
      simp only [Function.comp_apply, Prod.mk.injEq]
      exact ⟨by omega, trivial⟩

/-- Failed source fetch: two updates, nothing uploaded. -/
lemma runJobPatches_downloadFail (env : TranscodeEnv) (pfx : String)
    (h : env.downloadOk = false) :
    runJobPatches env pfx =
      ⟨[downloadingPatch, errorPatch ("Failed to download source: " ++ env.statusText)],
        []⟩ := by
  unfold runJobPatches
  rw [if_neg (by simp [h])]

/-- A thrown transcode error: downloading update, the recorded progress
updates, then the error update; nothing uploaded. -/
lemma runJobPatches_transcodeFail (env : TranscodeEnv) (pfx : String)
    (hdl : env.downloadOk = true) (calls : List (String × List String × Nat)) (e : String)
    (htr : transcodeToHLS env (orchestratorOpts pfx) = ⟨calls, .error e⟩) :
    runJobPatches env pfx =
      ⟨downloadingPatch :: calls.map transcodingPatch ++ [errorPatch e], []⟩ := by
  unfold runJobPatches
  rw [if_pos hdl]
  rw [show ({ outputPrefix := pfx, segmentDuration := some 10 } : TranscodeOptions) =
    orchestratorOpts pfx from rfl, htr]

/-- A fully successful run: downloading update, progress updates,
uploading update, done update, and every artifact key uploaded. -/
lemma runJobPatches_ok (env : TranscodeEnv) (pfx : String)
    (hdl : env.downloadOk = true) (calls : List (String × List String × Nat))
    (files : List TranscodedFile)
    (htr : transcodeToHLS env (orchestratorOpts pfx) = ⟨calls, .ok files⟩)
    (hup : env.uploadOk = true) :
    runJobPatches env pfx =
      ⟨downloadingPatch :: calls.map transcodingPatch ++
          [uploadingPatch files.length, donePatch files],
        files.map (fun f => f.key)⟩ := by
  unfold runJobPatches
  rw [if_pos hdl]
  rw [show ({ outputPrefix := pfx, segmentDuration := some 10 } : TranscodeOptions) =
    orchestratorOpts pfx from rfl, htr]
  simp only [if_pos hup]

/-- A failed upload after a successful transcode: the error update replaces
the done update and nothing is recorded as uploaded. -/
lemma runJobPatches_uploadFail (env : TranscodeEnv) (pfx : String)
    (hdl : env.downloadOk = true) (calls : List (String × List String × Nat))
    (files : List TranscodedFile)
    (htr : transcodeToHLS env (orchestratorOpts pfx) = ⟨calls, .ok files⟩)
    (hup : env.uploadOk = false) :
    runJobPatches env pfx =
      ⟨downloadingPatch :: calls.map transcodingPatch ++
          [uploadingPatch files.length, errorPatch env.uploadErrMsg],
        []⟩ := by
  unfold runJobPatches
  rw [if_pos hdl]
  rw [show ({ outputPrefix := pfx, segmentDuration := some 10 } : TranscodeOptions) =
    orchestratorOpts pfx from rfl, htr]
  simp only [hup, Bool.false_eq_true, if_false]

/-- Extracting percentages from the mapped transcoding patches. -/
lemma filterMap_transcodingPatch (calls : List (String × List String × Nat)) :
    List.filterMap (patchPct ∘ transcodingPatch) calls =
      calls.map (fun c => transcodePct c.2.1.length c.2.2) := by
  induction calls with
  | nil => rfl
  | cons c r ih =>
      simp only [List.filterMap_cons, Function.comp_apply, List.map_cons]
      rw [show patchPct (transcodingPatch c) =
        some (transcodePct c.2.1.length c.2.2) from rfl, ih]

/-- `runPcts` is the percentage extraction over the run's patches. -/
lemma runPcts_eq (env : TranscodeEnv) (pfx : String) :
    runPcts env pfx = (runJobPatches env pfx).patches.filterMap patchPct := rfl

/-- Percentage values of the individual patches. -/
lemma patchPct_values :
    patchPct downloadingPatch = some 0 ∧
    (∀ k, patchPct (uploadingPatch k) = some 80) ∧
    (∀ fs, patchPct (donePatch fs) = some 100) ∧
    (∀ e, patchPct (errorPatch e) = none) :=
  ⟨rfl, fun _ => rfl, fun _ => rfl, fun _ => rfl⟩

/-- Percentages of the download-failure run. -/
lemma runPcts_downloadFail (env : TranscodeEnv) (pfx : String)
    (h : env.downloadOk = false) : runPcts env pfx = [0] := by
  rw [runPcts_eq, runJobPatches_downloadFail env pfx h]
  simp [List.filterMap_cons, patchPct_values.1, patchPct_values.2.2.2]

/-- Percentages of a run whose transcode throws. -/
lemma runPcts_transcodeFail (env : TranscodeEnv) (pfx : String)
    (hdl : env.downloadOk = true) (calls : List (String × List String × Nat)) (e : String)
    (htr : transcodeToHLS env (orchestratorOpts pfx) = ⟨calls, .error e⟩) :
    runPcts env pfx = 0 :: calls.map (fun c => transcodePct c.2.1.length c.2.2) := by
  rw [runPcts_eq, runJobPatches_transcodeFail env pfx hdl calls e htr]
  simp [List.filterMap_cons, List.filterMap_append, filterMap_transcodingPatch,
    patchPct_values.1, patchPct_values.2.2.2]

/-- Percentages of a fully successful run. -/
lemma runPcts_ok (env : TranscodeEnv) (pfx : String)
    (hdl : env.downloadOk = true) (calls : List (String × List String × Nat))
    (files : List TranscodedFile)
    (htr : transcodeToHLS env (orchestratorOpts pfx) = ⟨calls, .ok files⟩)
    (hup : env.uploadOk = true) :
    runPcts env pfx =
      0 :: calls.map (fun c => transcodePct c.2.1.length c.2.2) ++ [80, 100] := by
  rw [runPcts_eq, runJobPatches_ok env pfx hdl calls files htr hup]
  simp [List.filterMap_cons, List.filterMap_append, filterMap_transcodingPatch,
    patchPct_values.1, patchPct_values.2.1, patchPct_values.2.2.1]

/-- Percentages of a run whose upload fails. -/
lemma runPcts_uploadFail (env : TranscodeEnv) (pfx : String)
    (hdl : env.downloadOk = true) (calls : List (String × List String × Nat))
    (files : List TranscodedFile)
    (htr : transcodeToHLS env (orchestratorOpts pfx) = ⟨calls, .ok files⟩)
    (hup : env.uploadOk = false) :
    runPcts env pfx =
      0 :: calls.map (fun c => transcodePct c.2.1.length c.2.2) ++ [80] := by
  rw [runPcts_eq, runJobPatches_uploadFail env pfx hdl calls files htr hup]
  simp [List.filterMap_cons, List.filterMap_append, filterMap_transcodingPatch,
    patchPct_values.1, patchPct_values.2.1, patchPct_values.2.2.2]

/-- In every environment, the completed-count/total pairs reported by the
transcode stage are an initial run `0, 1, …, m-1` (paired with the selected
count `n`) for some `m ≤ n + 1`. -/
lemma transcode_calls_shape (env : TranscodeEnv) (pfx : String) :
    ∃ m, m ≤ (selectQualities DEFAULT_QUALITIES env.sourceHeight).length + 1 ∧
      (transcodeToHLS env (orchestratorOpts pfx)).calls.map
        (fun c => (c.2.1.length, c.2.2)) =
      (List.range m).map
        (fun j => (j, (selectQualities DEFAULT_QUALITIES env.sourceHeight).length)) := by
  by_cases hprobe : env.probeOk = true
  · by_cases hall : ∀ j, j < (selectQualities DEFAULT_QUALITIES env.sourceHeight).length →
        env.encodeExit j = 0
    · have hcalls :
          (expectedCalls (selectQualities DEFAULT_QUALITIES env.sourceHeight).length
              (selectQualities DEFAULT_QUALITIES env.sourceHeight) [] ++
            [("thumbnails",
              (selectQualities DEFAULT_QUALITIES env.sourceHeight).map (fun q => q.name),
              (selectQualities DEFAULT_QUALITIES env.sourceHeight).length)]).map
            (fun c => (c.2.1.length, c.2.2)) =
          (List.range ((selectQualities DEFAULT_QUALITIES env.sourceHeight).length + 1)).map
            (fun j => (j, (selectQualities DEFAULT_QUALITIES env.sourceHeight).length)) := by
        rw [List.map_append, expectedCalls_lens, List.range_succ, List.map_append]
        simp
      by_cases hdur : env.durationOk = true
      · rw [transcode_run_ok env pfx hprobe hall hdur]
        exact ⟨(selectQualities DEFAULT_QUALITIES env.sourceHeight).length + 1,
          le_refl _, hcalls⟩
      · rw [transcode_run_durFail env pfx hprobe hall (by simpa using hdur)]
        exact ⟨(selectQualities DEFAULT_QUALITIES env.sourceHeight).length + 1,
          le_refl _, hcalls⟩
    · have hP : ∃ j, j < (selectQualities DEFAULT_QUALITIES env.sourceHeight).length ∧
          env.encodeExit j ≠ 0 := by
        push_neg at hall
        exact hall
      have hi := Nat.find_spec hP
      have hminz : ∀ j, j < Nat.find hP → env.encodeExit j = 0 := by
        intro j hj
        by_contra hne
        exact Nat.find_min hP hj ⟨by omega, hne⟩
      rw [transcode_run_encodeFail env pfx hprobe (Nat.find hP) hi.1 hi.2 hminz]
      obtain ⟨m, hm, hlens, _⟩ := encodeLoop_lens env pfx
        (selectQualities DEFAULT_QUALITIES env.sourceHeight).length
        (selectQualities DEFAULT_QUALITIES env.sourceHeight) 0 []
      refine ⟨m, by omega, ?_⟩
      rw [hlens]
      simp
  · rw [transcode_run_probeFail env pfx (by simpa using hprobe)]
    exact ⟨0, by omega, by simp⟩

/-- In every environment the reported percentages are `0`, then an initial
run of the transcoding percentages, then a (possibly truncated) `80, 100`
tail. -/
lemma runPcts_shape (env : TranscodeEnv) (pfx : String) :
    ∃ m t, m ≤ (selectQualities DEFAULT_QUALITIES env.sourceHeight).length + 1 ∧
      (t = [] ∨ t = [80] ∨ t = [80, 100]) ∧
      runPcts env pfx =
        0 :: (List.range m).map
          (fun j => transcodePct j (selectQualities DEFAULT_QUALITIES env.sourceHeight).length) ++
          t := by
  by_cases hdl : env.downloadOk = true
  · obtain ⟨m, hm, hlens⟩ := transcode_calls_shape env pfx
    rcases htr : transcodeToHLS env (orchestratorOpts pfx) with ⟨calls, res⟩
    rw [htr] at hlens
    have hcallspcts : calls.map (fun c => transcodePct c.2.1.length c.2.2) =
        (List.range m).map
          (fun j => transcodePct j (selectQualities DEFAULT_QUALITIES env.sourceHeight).length) := by
      have h1 : calls.map (fun c => transcodePct c.2.1.length c.2.2) =
          (calls.map (fun c => (c.2.1.length, c.2.2))).map
            (fun pr => transcodePct pr.1 pr.2) := by
        rw [List.map_map]
        rfl
      rw [h1, hlens, List.map_map]
      rfl
    cases res with
    | error e =>
        refine ⟨m, [], hm, Or.inl rfl, ?_⟩
        rw [runPcts_transcodeFail env pfx hdl calls e htr, hcallspcts]
        simp
    | ok files =>
        by_cases hup : env.uploadOk = true
        · refine ⟨m, [80, 100], hm, Or.inr (Or.inr rfl), ?_⟩
          rw [runPcts_ok env pfx hdl calls files htr hup, hcallspcts]
        · refine ⟨m, [80], hm, Or.inr (Or.inl rfl), ?_⟩
          rw [runPcts_uploadFail env pfx hdl calls files htr (by simpa using hup), hcallspcts]
  · refine ⟨0, [], by omega, Or.inl rfl, ?_⟩
    rw [runPcts_downloadFail env pfx (by simpa using hdl)]
    simp

/-- The percentage sequence of the shape above is monotonically
non-decreasing. -/
lemma pcts_chain (n m : Nat) (t : List Nat) (hn : 0 < n) (hm : m ≤ n + 1)
    (ht : t = [] ∨ t = [80] ∨ t = [80, 100]) :
    List.Chain' (· ≤ ·) (0 :: (List.range m).map (fun j => transcodePct j n) ++ t) := by
  apply List.Pairwise.chain'
  rw [List.cons_append, List.pairwise_cons]
  constructor
  · intro x _
    exact Nat.zero_le x
  · rw [List.pairwise_append]
    refine ⟨?_, ?_, ?_⟩
    · rw [List.pairwise_map]
      exact (List.pairwise_lt_range m).imp
        (fun hij => transcodePct_mono n hn (Nat.le_of_lt hij))
    · rcases ht with h | h | h <;> rw [h] <;> decide
    · intro a ha b hb
      obtain ⟨j, hj, rfl⟩ := List.mem_map.mp ha
      have hj' : j ≤ n := by
        have := List.mem_range.mp hj
        omega
      have h70 : transcodePct j n ≤ 70 := transcodePct_le_70 j n hn hj'
      have hb80 : 80 ≤ b := by
        rcases ht with h | h | h <;> rw [h] at hb <;> simp at hb <;> omega
      omega

/-- The mapped percentages of a successful run's calls. -/
lemma calls_pcts_ok (env : TranscodeEnv) :
    (expectedCalls (selectQualities DEFAULT_QUALITIES env.sourceHeight).length
        (selectQualities DEFAULT_QUALITIES env.sourceHeight) [] ++
      [("thumbnails",
        (selectQualities DEFAULT_QUALITIES env.sourceHeight).map (fun q => q.name),
        (selectQualities DEFAULT_QUALITIES env.sourceHeight).length)]).map
      (fun c => transcodePct c.2.1.length c.2.2) =
    (List.range ((selectQualities DEFAULT_QUALITIES env.sourceHeight).length + 1)).map
      (fun i => transcodePct i (selectQualities DEFAULT_QUALITIES env.sourceHeight).length) := by
  rw [List.map_append]
  have hA : (expectedCalls (selectQualities DEFAULT_QUALITIES env.sourceHeight).length
        (selectQualities DEFAULT_QUALITIES env.sourceHeight) []).map
      (fun c => transcodePct c.2.1.length c.2.2) =
      (List.range (selectQualities DEFAULT_QUALITIES env.sourceHeight).length).map
        (fun j => transcodePct j (selectQualities DEFAULT_QUALITIES env.sourceHeight).length) := by
    have h1 : (expectedCalls (selectQualities DEFAULT_QUALITIES env.sourceHeight).length
          (selectQualities DEFAULT_QUALITIES env.sourceHeight) []).map
        (fun c => transcodePct c.2.1.length c.2.2) =
        ((expectedCalls (selectQualities DEFAULT_QUALITIES env.sourceHeight).length
          (selectQualities DEFAULT_QUALITIES env.sourceHeight) []).map
            (fun c => (c.2.1.length, c.2.2))).map (fun pr => transcodePct pr.1 pr.2) := by
      rw [List.map_map]
      rfl
    rw [h1, expectedCalls_lens, List.map_map]
    apply List.map_congr_left
    intro j hj
    simp
  rw [hA, List.range_succ, List.map_append, List.map_cons, List.map_nil, List.map_cons,
    List.map_nil]
  simp

/-- C2: across the updates of any single job run the reported percentage is
monotonically non-decreasing and starts at 0 (hence `≥ 0`); on a fully
successful run the sequence is exactly the downloading `0`, the
per-rendition percentages `Math.round((completed/total)·60) + 10 =
⌊(120·completed + total)/(2·total)⌋ + 10` for completed = 0,…,total
(filling 10-70, with the thumbnails call reporting exactly 70), the upload
`80`, and the final `100`. -/
theorem job_progress_spec (env : TranscodeEnv) (pfx : String) :
    (runPcts env pfx).head? = some 0 ∧
    List.Chain' (· ≤ ·) (runPcts env pfx) ∧
    (env.downloadOk = true → env.probeOk = true →
      (∀ j, j < (selectQualities DEFAULT_QUALITIES env.sourceHeight).length →
        env.encodeExit j = 0) →
      env.durationOk = true → env.uploadOk = true →
      runPcts env pfx =
        0 :: (List.range ((selectQualities DEFAULT_QUALITIES env.sourceHeight).length + 1)).map
          (fun i => transcodePct i (selectQualities DEFAULT_QUALITIES env.sourceHeight).length) ++
          [80, 100] ∧
      (runPcts env pfx).getLast? = some 100 ∧
      transcodePct (selectQualities DEFAULT_QUALITIES env.sourceHeight).length
        (selectQualities DEFAULT_QUALITIES env.sourceHeight).length = 70 ∧
      transcodePct 0 (selectQualities DEFAULT_QUALITIES env.sourceHeight).length = 10 ∧
      (∀ c t, 0 < t → transcodePct c t = (120 * c + t) / (2 * t) + 10)) := by
  have hn : 0 < (selectQualities DEFAULT_QUALITIES env.sourceHeight).length :=
    List.length_pos.mpr (selectQualities_ne_nil DEFAULT_QUALITIES env.sourceHeight (by decide))
  obtain ⟨m, t, hm, ht, hshape⟩ := runPcts_shape env pfx
  refine ⟨by rw [hshape]; rfl, by rw [hshape]; exact pcts_chain _ m t hn hm ht, ?_⟩
  intro hdl hprobe henc hdur hup
  have hok := transcode_run_ok env pfx hprobe henc hdur
  have hpcts := runPcts_ok env pfx hdl _ _ hok hup
  have hfinal : runPcts env pfx =
      0 :: (List.range ((selectQualities DEFAULT_QUALITIES env.sourceHeight).length + 1)).map
        (fun i => transcodePct i (selectQualities DEFAULT_QUALITIES env.sourceHeight).length) ++
        [80, 100] := by
    rw [hpcts, calls_pcts_ok env]
  refine ⟨hfinal, ?_, transcodePct_top _ hn, transcodePct_zero _ hn,
    fun c tt htp => transcodePct_eq c tt htp⟩
  rw [hfinal]
  rw [show ((0 : Nat) :: (List.range ((selectQualities DEFAULT_QUALITIES env.sourceHeight).length + 1)).map
        (fun i => transcodePct i (selectQualities DEFAULT_QUALITIES env.sourceHeight).length) ++
        [80, 100]) =
      ((0 :: (List.range ((selectQualities DEFAULT_QUALITIES env.sourceHeight).length + 1)).map
        (fun i => transcodePct i (selectQualities DEFAULT_QUALITIES env.sourceHeight).length) ++
        [80]) ++ [100]) from by simp]
  exact List.getLast?_concat _

/-- Witness for `job_progress_spec`: an all-success environment. -/
theorem job_progress_spec_witness :
    ((sampleEnv (fun _ => 0) 30).downloadOk = true ∧
      (sampleEnv (fun _ => 0) 30).probeOk = true ∧
      (∀ j, j < (selectQualities DEFAULT_QUALITIES
          (sampleEnv (fun _ => 0) 30).sourceHeight).length →
        (sampleEnv (fun _ => 0) 30).encodeExit j = 0) ∧
      (sampleEnv (fun _ => 0) 30).durationOk = true ∧
      (sampleEnv (fun _ => 0) 30).uploadOk = true) ∧
    (runPcts (sampleEnv (fun _ => 0) 30) ("output/j/") =
      0 :: (List.range ((selectQualities DEFAULT_QUALITIES
            (sampleEnv (fun _ => 0) 30).sourceHeight).length + 1)).map
        (fun i => transcodePct i (selectQualities DEFAULT_QUALITIES
            (sampleEnv (fun _ => 0) 30).sourceHeight).length) ++ [80, 100] ∧
      (runPcts (sampleEnv (fun _ => 0) 30) ("output/j/")).getLast? = some 100 ∧
      transcodePct (selectQualities DEFAULT_QUALITIES
          (sampleEnv (fun _ => 0) 30).sourceHeight).length
        (selectQualities DEFAULT_QUALITIES
          (sampleEnv (fun _ => 0) 30).sourceHeight).length = 70 ∧
      transcodePct 0 (selectQualities DEFAULT_QUALITIES
          (sampleEnv (fun _ => 0) 30).sourceHeight).length = 10 ∧
      (∀ c t, 0 < t → transcodePct c t = (120 * c + t) / (2 * t) + 10)) :=
  ⟨⟨rfl, rfl, by decide, rfl, rfl⟩,
    (job_progress_spec (sampleEnv (fun _ => 0) 30) ("output/j/")).2.2
      rfl rfl (by decide) rfl rfl⟩

/-- C3: if the external engine exits non-zero on the first failing selected
quality `i`, the whole job ends in `error`, the job's error message is the
ffmpeg failure message and contains the engine's stderr verbatim, and
nothing at all is uploaded. -/
theorem encode_failure_spec (env : TranscodeEnv) (body : SubmitBody) (uuid : Nat → String)
    (hdl : env.downloadOk = true) (hprobe : env.probeOk = true)
    (i : Nat) (hi : i < (selectQualities DEFAULT_QUALITIES env.sourceHeight).length)
    (hfail : env.encodeExit i ≠ 0)
    (hmin : ∀ j, j < i → env.encodeExit j = 0) :
    (runJob env body uuid).1.status = JobStatus.error ∧
    (runJob env body uuid).1.error = some (ffmpegFailMsg
      ((selectQualities DEFAULT_QUALITIES env.sourceHeight).get ⟨i, hi⟩).name
      (env.encodeExit i) (env.encodeStderr i)) ∧
    (∃ pre, (runJob env body uuid).1.error = some (pre ++ env.encodeStderr i)) ∧
    (runJob env body uuid).2.uploaded = [] := by
  have htr := transcode_run_encodeFail env
    (createJobEndpoint body uuid (env.clock 0)).resultKeyPrefix hprobe i hi hfail hmin
  have hout := runJobPatches_transcodeFail env
    (createJobEndpoint body uuid (env.clock 0)).resultKeyPrefix hdl _ _ htr
  have hjob1 : (runJob env body uuid).1 = applyPatchList env.clock 1
      (createJobEndpoint body uuid (env.clock 0))
      (runJobPatches env (createJobEndpoint body uuid (env.clock 0)).resultKeyPrefix).patches :=
    rfl
  have hjob2 : (runJob env body uuid).2 =
      runJobPatches env (createJobEndpoint body uuid (env.clock 0)).resultKeyPrefix := rfl
  rw [hjob1, hjob2, hout]
  have hsplit :
      downloadingPatch ::
        (encodeLoop env (createJobEndpoint body uuid (env.clock 0)).resultKeyPrefix
          (selectQualities DEFAULT_QUALITIES env.sourceHeight).length
          (selectQualities DEFAULT_QUALITIES env.sourceHeight) 0 []).calls.map
            transcodingPatch ++
        [errorPatch (ffmpegFailMsg
          ((selectQualities DEFAULT_QUALITIES env.sourceHeight).get ⟨i, hi⟩).name
          (env.encodeExit i) (env.encodeStderr i))] =
      (downloadingPatch ::
        (encodeLoop env (createJobEndpoint body uuid (env.clock 0)).resultKeyPrefix
          (selectQualities DEFAULT_QUALITIES env.sourceHeight).length
          (selectQualities DEFAULT_QUALITIES env.sourceHeight) 0 []).calls.map
            transcodingPatch) ++
        [errorPatch (ffmpegFailMsg
          ((selectQualities DEFAULT_QUALITIES env.sourceHeight).get ⟨i, hi⟩).name
          (env.encodeExit i) (env.encodeStderr i))] := by
    simp
  rw [hsplit, applyPatchList_append]
  refine ⟨by simp [applyPatchList, applyPatch, errorPatch], ?_, ?_, rfl⟩
  · simp [applyPatchList, applyPatch, errorPatch]
  · refine ⟨"FFmpeg failed for " ++
      ((selectQualities DEFAULT_QUALITIES env.sourceHeight).get ⟨i, hi⟩).name ++
      " with exit code " ++ toString (env.encodeExit i) ++ ": ", ?_⟩
    simp [applyPatchList, applyPatch, errorPatch]
    rfl

/-- Witness for `encode_failure_spec`: the third selected quality (720p)
exits 1 while 360p and 480p succeed (end-to-end scenario C). -/
theorem encode_failure_spec_witness :
    ((sampleEnv (fun k => if k = 2 then 1 else 0) 30).downloadOk = true ∧
      (sampleEnv (fun k => if k = 2 then 1 else 0) 30).probeOk = true ∧
      2 < (selectQualities DEFAULT_QUALITIES
        (sampleEnv (fun k => if k = 2 then 1 else 0) 30).sourceHeight).length ∧
      (sampleEnv (fun k => if k = 2 then 1 else 0) 30).encodeExit 2 ≠ 0 ∧
      (∀ j, j < 2 → (sampleEnv (fun k => if k = 2 then 1 else 0) 30).encodeExit j = 0)) ∧
    ((runJob (sampleEnv (fun k => if k = 2 then 1 else 0) 30)
        { sourceUrl := "s3://src" } (fun k => "u" ++ toString k)).1.status = JobStatus.error ∧
      (runJob (sampleEnv (fun k => if k = 2 then 1 else 0) 30)
        { sourceUrl := "s3://src" } (fun k => "u" ++ toString k)).1.error =
        some (ffmpegFailMsg
          ((selectQualities DEFAULT_QUALITIES
            (sampleEnv (fun k => if k = 2 then 1 else 0) 30).sourceHeight).get
              ⟨2, by decide⟩).name
          ((sampleEnv (fun k => if k = 2 then 1 else 0) 30).encodeExit 2)
          ((sampleEnv (fun k => if k = 2 then 1 else 0) 30).encodeStderr 2)) ∧
      (∃ pre, (runJob (sampleEnv (fun k => if k = 2 then 1 else 0) 30)
          { sourceUrl := "s3://src" } (fun k => "u" ++ toString k)).1.error =
        some (pre ++ (sampleEnv (fun k => if k = 2 then 1 else 0) 30).encodeStderr 2)) ∧
      (runJob (sampleEnv (fun k => if k = 2 then 1 else 0) 30)
        { sourceUrl := "s3://src" } (fun k => "u" ++ toString k)).2.uploaded = []) :=
  ⟨⟨rfl, rfl, by decide, by decide, by decide⟩,
    encode_failure_spec (sampleEnv (fun k => if k = 2 then 1 else 0) 30)
      { sourceUrl := "s3://src" } (fun k => "u" ++ toString k)
      rfl rfl 2 (by decide) (by decide) (by decide)⟩

/-- Every rendition artifact key ends in `.ts` or `.m3u8` (so its last
character is `'s'` or `'8'`). -/
lemma expectedRenditionFiles_key_last (env : TranscodeEnv) (pfx : String) :
    ∀ (qs : List QualityLevel) (idx : Nat) (f : TranscodedFile),
      f ∈ expectedRenditionFiles env pfx qs idx →
      f.key.data.getLast? = some 's' ∨ f.key.data.getLast? = some '8' := by
  intro qs
  induction qs with
  | nil =>
      intro idx f hf
      simp [expectedRenditionFiles] at hf
  | cons q rest ih =>
      intro idx f hf
      simp only [expectedRenditionFiles, List.mem_append] at hf
      rcases hf with hf | hf
      · unfold qualityFiles renditionFileNames at hf
        simp only [List.map_cons, List.mem_cons, List.mem_map] at hf
        rcases hf with rfl | hf
        · right
          exact key_getLast pfx q.name _ '8' (by decide)
        · obtain ⟨x, hx, rfl⟩ := hf
          obtain ⟨j, _, rfl⟩ := hx
          left
          apply key_getLast
          unfold segmentName
          rw [String.data_append, List.getLast?_append]
          rfl
      · exact ih (idx + 1) f hf

/-- No rendition-file or master-playlist key passes an `endsWith` check for
a pattern ending in a different character; the appended poster key passes
its own check. -/
lemma find_poster (env : TranscodeEnv) (pfx : String) (qs : List QualityLevel) (idx : Nat) :
    (expectedRenditionFiles env pfx qs idx ++
      [({ key := pfx ++ "master.m3u8", contentType := "application/x-mpegURL" } : TranscodedFile)] ++
      [({ key := pfx ++ "poster.jpg", contentType := "image/jpeg" } : TranscodedFile)]).find?
        (fun f => strEndsWith f.key ("poster.jpg")) =
      some ({ key := pfx ++ "poster.jpg", contentType := "image/jpeg" } : TranscodedFile) := by
  have hrend : (expectedRenditionFiles env pfx qs idx).find?
      (fun f => strEndsWith f.key ("poster.jpg")) = none := by
    rw [List.find?_eq_none]
    intro f hf
    rcases expectedRenditionFiles_key_last env pfx qs idx f hf with h | h
    · simp [strEndsWith_false_of_last f.key ("poster.jpg") 's' 'g' h (by decide) (by decide)]
    · simp [strEndsWith_false_of_last f.key ("poster.jpg") '8' 'g' h (by decide) (by decide)]
  have hmaster : strEndsWith (pfx ++ "master.m3u8") ("poster.jpg") = false := by
    apply strEndsWith_false_of_last _ _ '8' 'g' _ (by decide) (by decide)
    rw [String.data_append, List.getLast?_append]
    rfl
  rw [List.find?_append, List.find?_append, hrend]
  simp [List.find?_singleton, hmaster, strEndsWith_append_self]

/-- The cue-sidecar lookup finds nothing when the sprite/cue stage was
skipped: no produced key ends in `thumbnails.vtt`. -/
lemma find_vtt (env : TranscodeEnv) (pfx : String) (qs : List QualityLevel) (idx : Nat) :
    (expectedRenditionFiles env pfx qs idx ++
      [({ key := pfx ++ "master.m3u8", contentType := "application/x-mpegURL" } : TranscodedFile)] ++
      [({ key := pfx ++ "poster.jpg", contentType := "image/jpeg" } : TranscodedFile)]).find?
        (fun f => strEndsWith f.key ("thumbnails.vtt")) = none := by
  have hrend : (expectedRenditionFiles env pfx qs idx).find?
      (fun f => strEndsWith f.key ("thumbnails.vtt")) = none := by
    rw [List.find?_eq_none]
    intro f hf
    rcases expectedRenditionFiles_key_last env pfx qs idx f hf with h | h
    · simp [strEndsWith_false_of_last f.key ("thumbnails.vtt") 's' 't' h (by decide) (by decide)]
    · simp [strEndsWith_false_of_last f.key ("thumbnails.vtt") '8' 't' h (by decide) (by decide)]
  have hmaster : strEndsWith (pfx ++ "master.m3u8") ("thumbnails.vtt") = false := by
    apply strEndsWith_false_of_last _ _ '8' 't' _ (by decide) (by decide)
    rw [String.data_append, List.getLast?_append]
    rfl
  have hposter : strEndsWith (pfx ++ "poster.jpg") ("thumbnails.vtt") = false := by
    apply strEndsWith_false_of_last _ _ 'g' 't' _ (by decide) (by decide)
    rw [String.data_append, List.getLast?_append]
    rfl
  rw [List.find?_append, List.find?_append, hrend]
  simp [List.find?_singleton, hmaster, hposter]

/-- The created job has no thumbnail-index key and no error. -/
lemma createJobEndpoint_fields (body : SubmitBody) (uuid : Nat → String) (now : Nat) :
    (createJobEndpoint body uuid now).thumbnailsVtt = none ∧
    (createJobEndpoint body uuid now).error = none := by
  unfold createJobEndpoint createJob
  cases body.resultKeyPrefix <;> exact ⟨rfl, rfl⟩

/-- No patch before the terminal one touches `thumbnailsVtt` or `error`. -/
lemma front_patches_none (calls : List (String × List String × Nat)) (k : Nat) :
    ∀ p ∈ downloadingPatch :: calls.map transcodingPatch ++ [uploadingPatch k],
      p.thumbnailsVtt = none ∧ p.error = none := by
  intro p hp
  rcases List.mem_cons.mp hp with rfl | hp
  · exact ⟨rfl, rfl⟩
  rcases List.mem_append.mp hp with hp | hp
  · obtain ⟨c, _, rfl⟩ := List.mem_map.mp hp
    exact ⟨rfl, rfl⟩
  · rw [List.mem_singleton.mp hp]
    exact ⟨rfl, rfl⟩

/-- C7: when the scrub-thumbnail count `⌊duration / interval⌋` is zero (at
the orchestrator's default 10-second interval), the thumbnail stage
produces the poster alone — no sprite sheet, no cue sidecar — and the job
still reaches `done`: the uploaded keys are exactly the rendition files,
the master playlist and the poster, the job's `posterUrl` is set, its
`thumbnailsVtt` stays absent, and it carries no error. -/
theorem thumbnail_skip_spec (env : TranscodeEnv) (body : SubmitBody) (uuid : Nat → String)
    (hdl : env.downloadOk = true) (hprobe : env.probeOk = true)
    (henc : ∀ j, j < (selectQualities DEFAULT_QUALITIES env.sourceHeight).length →
      env.encodeExit j = 0)
    (hdur : env.durationOk = true) (hposter : env.posterOk = true)
    (hcount : scrubThumbCount env.duration 10 = 0)
    (hup : env.uploadOk = true) :
    generateThumbnails env 10 = .ok [("poster.jpg", "image/jpeg")] ∧
    (runJob env body uuid).1.status = JobStatus.done ∧
    (runJob env body uuid).2.uploaded =
      (expectedRenditionFiles env (createJobEndpoint body uuid (env.clock 0)).resultKeyPrefix
          (selectQualities DEFAULT_QUALITIES env.sourceHeight) 0).map (fun f => f.key) ++
        [(createJobEndpoint body uuid (env.clock 0)).resultKeyPrefix ++ "master.m3u8",
          (createJobEndpoint body uuid (env.clock 0)).resultKeyPrefix ++ "poster.jpg"] ∧
    (runJob env body uuid).1.posterUrl =
      some ((createJobEndpoint body uuid (env.clock 0)).resultKeyPrefix ++ "poster.jpg") ∧
    (runJob env body uuid).1.thumbnailsVtt = none ∧
    (runJob env body uuid).1.error = none := by
  have hthumbs := genThumbsList_zero env 10 hcount hposter
  have hgen : generateThumbnails env 10 = .ok [("poster.jpg", "image/jpeg")] := by
    rw [generateThumbnails_ok env 10 hdur, hthumbs]
  have hok := transcode_run_ok env (createJobEndpoint body uuid (env.clock 0)).resultKeyPrefix
    hprobe henc hdur
  rw [hthumbs] at hok
  simp only [List.map_cons, List.map_nil] at hok
  have hout := runJobPatches_ok env (createJobEndpoint body uuid (env.clock 0)).resultKeyPrefix
    hdl _ _ hok hup
  have hjob1 : (runJob env body uuid).1 = applyPatchList env.clock 1
      (createJobEndpoint body uuid (env.clock 0))
      (runJobPatches env (createJobEndpoint body uuid (env.clock 0)).resultKeyPrefix).patches :=
    rfl
  have hjob2 : (runJob env body uuid).2 =
      runJobPatches env (createJobEndpoint body uuid (env.clock 0)).resultKeyPrefix := rfl
  have hlast : ∀ (k : Nat) (j : Job) (ps : List JobPatch) (p : JobPatch),
      applyPatchList env.clock k j (ps ++ [p]) =
        applyPatch (applyPatchList env.clock k j ps) p (env.clock (k + ps.length)) := by
    intro k j ps p
    rw [applyPatchList_append]
    rfl
  have hshape : ∀ (a x y : JobPatch) (L : List JobPatch),
      a :: L ++ [x, y] = (a :: L ++ [x]) ++ [y] := by
    intro a x y L
    simp
  have hvttNone : ∀ (j : Job) (p : JobPatch) (now : Nat), p.thumbnailsVtt = none →
      (applyPatch j p now).thumbnailsVtt = j.thumbnailsVtt := by
    intro j p now h
    simp [applyPatch, h]
  have herrNone : ∀ (j : Job) (p : JobPatch) (now : Nat), p.error = none →
      (applyPatch j p now).error = j.error := by
    intro j p now h
    simp [applyPatch, h]
  have hstat : ∀ (j : Job) (p : JobPatch) (now : Nat),
      (applyPatch j p now).status = p.status.getD j.status := fun _ _ _ => rfl
  have hpu : ∀ (j : Job) (p : JobPatch) (now : Nat),
      (applyPatch j p now).posterUrl = (p.posterUrl.map some).getD j.posterUrl :=
    fun _ _ _ => rfl
  have hvt : ∀ (j : Job) (p : JobPatch) (now : Nat),
      (applyPatch j p now).thumbnailsVtt =
        (p.thumbnailsVtt.map some).getD j.thumbnailsVtt := fun _ _ _ => rfl
  have her : ∀ (j : Job) (p : JobPatch) (now : Nat),
      (applyPatch j p now).error = (p.error.map some).getD j.error := fun _ _ _ => rfl
  have hdpu : ∀ files : List TranscodedFile, (donePatch files).posterUrl =
      (files.find? (fun f => strEndsWith f.key ("poster.jpg"))).map (fun f => f.key) :=
    fun _ => rfl
  have hdvt : ∀ files : List TranscodedFile, (donePatch files).thumbnailsVtt =
      (files.find? (fun f => strEndsWith f.key ("thumbnails.vtt"))).map (fun f => f.key) :=
    fun _ => rfl
  refine ⟨hgen, ?_, ?_, ?_, ?_, ?_⟩
  · rw [hjob1, hout, hshape, hlast, hstat]
    rfl
  · rw [hjob2, hout]
    simp
  · rw [hjob1, hout, hshape, hlast, hpu, hdpu, find_poster]
    rfl
  · rw [hjob1, hout, hshape, hlast, hvt, hdvt, find_vtt]
    simp only [Option.map_none', Option.getD_none]
    rw [applyPatchList_field Job.thumbnailsVtt JobPatch.thumbnailsVtt hvttNone env.clock _ _ _
      (fun p hp => (front_patches_none _ _ p hp).1)]
    exact (createJobEndpoint_fields body uuid (env.clock 0)).1
  · rw [hjob1, hout, hshape, hlast, her]
    rw [show (donePatch (expectedRenditionFiles env
        (createJobEndpoint body uuid (env.clock 0)).resultKeyPrefix
        (selectQualities DEFAULT_QUALITIES env.sourceHeight) 0 ++
      [{ key := (createJobEndpoint body uuid (env.clock 0)).resultKeyPrefix ++ "master.m3u8",
         contentType := "application/x-mpegURL" }] ++
      [{ key := (createJobEndpoint body uuid (env.clock 0)).resultKeyPrefix ++ "poster.jpg",
         contentType := "image/jpeg" }])).error = none from rfl]
    simp only [Option.map_none', Option.getD_none]
    rw [applyPatchList_field Job.error JobPatch.error herrNone env.clock _ _ _
      (fun p hp => (front_patches_none _ _ p hp).2)]
    exact (createJobEndpoint_fields body uuid (env.clock 0)).2

/-- Witness for `thumbnail_skip_spec`: a 3-second source at the default
10-second thumbnail interval (end-to-end scenario B). -/
theorem thumbnail_skip_spec_witness :
    ((sampleEnv (fun _ => 0) 3).downloadOk = true ∧
      (sampleEnv (fun _ => 0) 3).probeOk = true ∧
      (∀ j, j < (selectQualities DEFAULT_QUALITIES
          (sampleEnv (fun _ => 0) 3).sourceHeight).length →
        (sampleEnv (fun _ => 0) 3).encodeExit j = 0) ∧
      (sampleEnv (fun _ => 0) 3).durationOk = true ∧
      (sampleEnv (fun _ => 0) 3).posterOk = true ∧
      scrubThumbCount (sampleEnv (fun _ => 0) 3).duration 10 = 0 ∧
      (sampleEnv (fun _ => 0) 3).uploadOk = true) ∧
    (generateThumbnails (sampleEnv (fun _ => 0) 3) 10 = .ok [("poster.jpg", "image/jpeg")] ∧
      (runJob (sampleEnv (fun _ => 0) 3) { sourceUrl := "s3://src" }
        (fun k => "u" ++ toString k)).1.status = JobStatus.done ∧
      (runJob (sampleEnv (fun _ => 0) 3) { sourceUrl := "s3://src" }
        (fun k => "u" ++ toString k)).2.uploaded =
        (expectedRenditionFiles (sampleEnv (fun _ => 0) 3)
            (createJobEndpoint { sourceUrl := "s3://src" } (fun k => "u" ++ toString k)
              ((sampleEnv (fun _ => 0) 3).clock 0)).resultKeyPrefix
            (selectQualities DEFAULT_QUALITIES (sampleEnv (fun _ => 0) 3).sourceHeight) 0).map
              (fun f => f.key) ++
          [(createJobEndpoint { sourceUrl := "s3://src" } (fun k => "u" ++ toString k)
              ((sampleEnv (fun _ => 0) 3).clock 0)).resultKeyPrefix ++ "master.m3u8",
            (createJobEndpoint { sourceUrl := "s3://src" } (fun k => "u" ++ toString k)
              ((sampleEnv (fun _ => 0) 3).clock 0)).resultKeyPrefix ++ "poster.jpg"] ∧
      (runJob (sampleEnv (fun _ => 0) 3) { sourceUrl := "s3://src" }
        (fun k => "u" ++ toString k)).1.posterUrl =
        some ((createJobEndpoint { sourceUrl := "s3://src" } (fun k => "u" ++ toString k)
          ((sampleEnv (fun _ => 0) 3).clock 0)).resultKeyPrefix ++ "poster.jpg") ∧
      (runJob (sampleEnv (fun _ => 0) 3) { sourceUrl := "s3://src" }
        (fun k => "u" ++ toString k)).1.thumbnailsVtt = none ∧
      (runJob (sampleEnv (fun _ => 0) 3) { sourceUrl := "s3://src" }
        (fun k => "u" ++ toString k)).1.error = none) :=
  ⟨⟨rfl, rfl, by decide, rfl, rfl, by norm_num [scrubThumbCount, sampleEnv], rfl⟩,
    thumbnail_skip_spec (sampleEnv (fun _ => 0) 3) { sourceUrl := "s3://src" }
      (fun k => "u" ++ toString k) rfl rfl (by decide) rfl rfl
      (by norm_num [scrubThumbCount, sampleEnv]) rfl⟩
